import Mathlib

/-!
Verification development for the AngReader repository (src/tsl.hpp, src/mmap.hpp).

The definitions below are a shallow embedding of the C++ code in src/tsl.hpp.
Machine integers (`size_t`, `uint64_t`) are modelled as `Nat`; the few places
where C++ wraparound could occur (`nColsEven - 1` with `nColsEven == 0`) are
guarded by explicit positivity hypotheses in the theorems.  Floating point
values are never computed with: every numeric field is represented by the exact
list of characters that the C library parsing routine (`strtof` / `strtoul`)
consumes for it, so two model runs store equal values exactly when the C++
runs parse the same lexeme (hence obtain bit-identical floats).
-/

set_option maxRecDepth 100000

/-- Characters treated as whitespace by `isspace` in the C locale
(space, tab, newline, vertical tab, form feed, carriage return). -/
def isSpaceC (c : Char) : Bool :=
  c = ' ' || c = '\t' || c = '\n' || c = '\x0b' || c = '\x0c' || c = '\r'

/-- Decimal digit characters (`isdigit` in the C locale). -/
def isDigitC (c : Char) : Bool :=
  c = '0' || c = '1' || c = '2' || c = '3' || c = '4' ||
  c = '5' || c = '6' || c = '7' || c = '8' || c = '9'

/-- A parsed lexeme: the exact characters consumed for one numeric field. -/
abbrev Tok := List Char

/-- Grid types, from `enum class GridType` in src/tsl.hpp. -/
inductive GridTypeM
  | Unknown
  | Square
  | Hexagonal
deriving DecidableEq

/-- File types, from `enum class FileType` in src/tsl.hpp. -/
inductive FileTypeM
  | Unknown
  | Ang
  | Osc
  | Hdf
deriving DecidableEq

/-!
## Row traversal shared by both decoders

`readAngData` and `readAngDataMemMap` (src/tsl.hpp lines 442-477 and 479-522)
keep identical loop state: `evenRow` (initially `true`), `completeRowPoints`
(initially 0) and `currentCol` (initially `nColsEven - 1`).  The index a record
is stored at is `completeRowPoints + currentCol`; the update at the end of each
iteration is `if(0 == currentCol--) { completeRowPoints += evenRow ? nColsEven
: nColsOdd; evenRow = !evenRow; currentCol = evenRow ? nColsEven - 1 :
nColsOdd - 1; }`.
-/

structure TravState where
  evenRow : Bool
  completeRowPoints : Nat
  currentCol : Nat
deriving DecidableEq

/-- Initial traversal state (`evenRow = true`, `completeRowPoints = 0`,
`currentCol = nColsEven - 1`). -/
def initTrav (nColsEven : Nat) : TravState :=
  ⟨true, 0, nColsEven - 1⟩

/-- Array index the current record is scattered to:
`completeRowPoints + currentCol`. -/
def travIndex (s : TravState) : Nat :=
  s.completeRowPoints + s.currentCol

/-- One traversal step, from the tail of both decode loops.  In the C++ the
column counter is post-decremented; in the wrap branch it is immediately
overwritten, and in the other branch it is positive, so `Nat` subtraction is
exact here. -/
def travStep (nColsEven nColsOdd : Nat) (s : TravState) : TravState :=
  if s.currentCol = 0 then
    let crp := s.completeRowPoints + (if s.evenRow then nColsEven else nColsOdd)
    let er := !s.evenRow
    ⟨er, crp, (if er then nColsEven else nColsOdd) - 1⟩
  else
    ⟨s.evenRow, s.completeRowPoints, s.currentCol - 1⟩

/-- Index assigned to the n-th record (0-based) by the shared traversal. -/
def angIndex (nColsEven nColsOdd : Nat) (n : Nat) : Nat :=
  travIndex ((travStep nColsEven nColsOdd)^[n] (initTrav nColsEven))

/-- Width of traversal row `r` (0-based): rows at even positions use
`nColsEven`, odd positions use `nColsOdd` (the first row is an "even" row). -/
def rowWidth (nColsEven nColsOdd r : Nat) : Nat :=
  if r % 2 = 0 then nColsEven else nColsOdd

/-- Number of points contained in the first `r` traversal rows. -/
def prefixPts (nColsEven nColsOdd : Nat) : Nat → Nat
  | 0 => 0
  | r + 1 => prefixPts nColsEven nColsOdd r + rowWidth nColsEven nColsOdd r

/-!
## Allocation (`OrientationMap::allocate`, src/tsl.hpp lines 210-235)
-/

/-- Total pixel count computed by `allocate` from the grid type and the
dimensions; `none` models the `std::runtime_error` thrown for `Unknown`. -/
def totalPointsOf (gridType : GridTypeM) (nColsOdd nColsEven nRows : Nat) :
    Option Nat :=
  match gridType with
  | .Square => some (max nColsOdd nColsEven * nRows)
  | .Hexagonal =>
      some ((nRows / 2) * (nColsOdd + nColsEven) +
        (if nRows % 2 = 1 then nColsOdd else 0))
  | .Unknown => none

/-- The per-pixel arrays of an `OrientationMap`.  Values are lexemes
(see `Tok`); the empty lexeme stands for the zero value the `resize`
fill produces. -/
structure AngArrays where
  eu : List Tok
  x : List Tok
  y : List Tok
  iq : List Tok
  ci : List Tok
  sem : List Tok
  fit : List Tok
  phase : List Tok
deriving DecidableEq

/-- Arrays produced by `allocate` on a freshly constructed map (all vectors
empty before the `resize` calls, so `resize` fills everything with zeros):
`eu` gets `3*totalPoints` entries, the other mandatory arrays `totalPoints`,
`sem` only when `tokenCount > 8` and `fit` only when `tokenCount > 9`. -/
def mkArrays (totalPoints tokenCount : Nat) : AngArrays :=
  { eu := List.replicate (3 * totalPoints) []
    x := List.replicate totalPoints []
    y := List.replicate totalPoints []
    iq := List.replicate totalPoints []
    ci := List.replicate totalPoints []
    sem := if tokenCount > 8 then List.replicate totalPoints [] else []
    fit := if tokenCount > 9 then List.replicate totalPoints [] else []
    phase := List.replicate totalPoints [] }

/-- `OrientationMap::allocate` on a freshly constructed map. -/
def allocateModel (gridType : GridTypeM) (nColsOdd nColsEven nRows : Nat)
    (tokenCount : Nat) : Option AngArrays :=
  (totalPointsOf gridType nColsOdd nColsEven nRows).map
    (fun t => mkArrays t tokenCount)

/-!
## Lexeme-level model of the C numeric parsing routines

`strtof` and `strtoul` skip leading whitespace, consume the longest prefix
matching their numeric grammar and set the end pointer past it; when no prefix
matches, they return zero and leave the end pointer at the original position
(the skipped whitespace is not consumed either).  The model returns the
consumed lexeme (empty on failure, standing for the zero value) and the rest
of the input.  The hexadecimal, infinity and NaN forms of `strtof` are not
modelled; every input considered by the theorems below is plain decimal. -/

/-- Digit run at the head of the input. -/
def takeDigits (s : List Char) : List Char := s.takeWhile isDigitC

/-- Input after the leading digit run. -/
def dropDigits (s : List Char) : List Char := s.dropWhile isDigitC

/-- Decimal mantissa: digits, optionally followed by a point and more digits;
at least one digit overall. -/
def mantTok (s : List Char) : Option (List Char × List Char) :=
  let d1 := takeDigits s
  let r1 := dropDigits s
  match r1 with
  | c :: r2 =>
      if c = '.' then
        let d2 := takeDigits r2
        let r3 := dropDigits r2
        if d1.isEmpty && d2.isEmpty then none
        else some (d1 ++ c :: d2, r3)
      else if d1.isEmpty then none else some (d1, r1)
  | [] => if d1.isEmpty then none else some (d1, r1)

/-- Optional exponent part: `e`/`E`, optional sign, at least one digit;
consumed only when complete. -/
def expTail (s : List Char) : List Char × List Char :=
  match s with
  | c :: r =>
      if c = 'e' || c = 'E' then
        match r with
        | c2 :: r2 =>
            if c2 = '+' || c2 = '-' then
              let d := takeDigits r2
              if d.isEmpty then ([], s) else (c :: c2 :: d, dropDigits r2)
            else
              let d := takeDigits r
              if d.isEmpty then ([], s) else (c :: d, dropDigits r)
        | [] => ([], s)
      else ([], s)
  | [] => ([], s)

/-- Longest decimal-float prefix (optional sign, mantissa, optional
exponent). -/
def floatTokOf (s : List Char) : Option (List Char × List Char) :=
  match s with
  | c :: r =>
      if c = '+' || c = '-' then
        match mantTok r with
        | none => none
        | some (m, r2) =>
            let (x, r3) := expTail r2
            some (c :: (m ++ x), r3)
      else
        match mantTok s with
        | none => none
        | some (m, r2) =>
            let (x, r3) := expTail r2
            some (m ++ x, r3)
  | [] => none

/-- Longest base-10 integer prefix (optional sign, at least one digit). -/
def ulongTokOf (s : List Char) : Option (List Char × List Char) :=
  match s with
  | c :: r =>
      if c = '+' || c = '-' then
        let d := takeDigits r
        if d.isEmpty then none else some (c :: d, dropDigits r)
      else
        let d := takeDigits s
        if d.isEmpty then none else some (d, dropDigits s)
  | [] => none

/-- Model of `strtof(data, &data)`: lexeme consumed and remaining input. -/
def parseFloatTok (s : List Char) : Tok × List Char :=
  match floatTokOf (s.dropWhile isSpaceC) with
  | none => ([], s)
  | some (t, r) => (t, r)

/-- Model of `strtoul(data, &data, 10)`: lexeme consumed and remaining
input. -/
def parseUlongTok (s : List Char) : Tok × List Char :=
  match ulongTokOf (s.dropWhile isSpaceC) with
  | none => ([], s)
  | some (t, r) => (t, r)

/-!
## Model of `istream::getline(line, 512)`

`readAngData` reads each record with `is.getline(line, sizeof(line))` where
`line` is a 512-byte buffer.  `getline` extracts characters up to the
newline (extracted, not stored) and fails — leaving the loop — either when
no character could be extracted (end of input) or when 511 characters were
stored without reaching the newline. -/
def getline512 (s : List Char) : Option (List Char × List Char) :=
  match s with
  | [] => none
  | _ =>
      let pre := s.takeWhile (fun c => c ≠ '\n')
      if 511 ≤ pre.length then none
      else some (pre, (s.drop pre.length).drop 1)

/-!
## The two point decoders
(`OrientationMap::readAngData`, src/tsl.hpp lines 442-477, and
`OrientationMap::readAngDataMemMap`, lines 479-522)

Both parse, per record: three Euler angles, x, y, image quality, confidence
index with `strtof`, the phase with `strtoul`, then — when the header counted
more than 8 (resp. 9) columns — the SE signal and the fit with `strtof`; the
memory-mapped variant additionally skips to the next newline when there are
more than 10 columns.  A record's fields and the input left after them are
computed by `parsePointFields`; the writes into the arrays at the traversal
index by `writePoint`.  In the C++ the parses and writes are interleaved
per field; the net effect on (arrays, cursor) is identical because each
parse reads only the cursor and each write touches a different array slot. -/

/-- The fields of one parsed record (unread optional fields are the zero
lexeme and are never written). -/
structure RawPoint where
  e0 : Tok
  e1 : Tok
  e2 : Tok
  px : Tok
  py : Tok
  piq : Tok
  pci : Tok
  pph : Tok
  psem : Tok
  pfit : Tok
deriving DecidableEq

/-- Parse the numeric fields of one record from the cursor, as both decode
loops do. -/
def parsePointFields (tokens : Nat) (s : List Char) : RawPoint × List Char :=
  let r0 := parseFloatTok s
  let r1 := parseFloatTok r0.2
  let r2 := parseFloatTok r1.2
  let r3 := parseFloatTok r2.2
  let r4 := parseFloatTok r3.2
  let r5 := parseFloatTok r4.2
  let r6 := parseFloatTok r5.2
  let r7 := parseUlongTok r6.2
  if tokens > 8 then
    let r8 := parseFloatTok r7.2
    if tokens > 9 then
      let r9 := parseFloatTok r8.2
      (⟨r0.1, r1.1, r2.1, r3.1, r4.1, r5.1, r6.1, r7.1, r8.1, r9.1⟩, r9.2)
    else
      (⟨r0.1, r1.1, r2.1, r3.1, r4.1, r5.1, r6.1, r7.1, r8.1, []⟩, r8.2)
  else
    (⟨r0.1, r1.1, r2.1, r3.1, r4.1, r5.1, r6.1, r7.1, [], []⟩, r7.2)

/-- Scatter one record into the arrays at index `i` (`eu[3i..3i+2]`, the
scalar arrays at `i`; `sem`/`fit` only when enough columns were counted). -/
def writePoint (A : AngArrays) (i : Nat) (p : RawPoint) (tokens : Nat) :
    AngArrays :=
  { eu := ((A.eu.set (3 * i) p.e0).set (3 * i + 1) p.e1).set (3 * i + 2) p.e2
    x := A.x.set i p.px
    y := A.y.set i p.py
    iq := A.iq.set i p.piq
    ci := A.ci.set i p.pci
    sem := if tokens > 8 then A.sem.set i p.psem else A.sem
    fit := if tokens > 9 then A.fit.set i p.pfit else A.fit
    phase := A.phase.set i p.pph }

/-- Loop of `readAngData`.  `fuel` starts at `totalPoints` and stays equal to
`totalPoints - pointsRead`, so `fuel = 0` exactly when the loop guard
`pointsRead < totalPoints` fails; the inner guard is kept for fidelity. -/
def readAngDataGo (nColsEven nColsOdd tokens totalPoints : Nat) :
    Nat → AngArrays → TravState → List Char → Nat → AngArrays × Nat
  | 0, A, _, _, pointsRead => (A, pointsRead)
  | fuel + 1, A, st, stream, pointsRead =>
      if pointsRead < totalPoints then
        match getline512 stream with
        | none => (A, pointsRead)
        | some (line, rest) =>
            let p := (parsePointFields tokens line).1
            readAngDataGo nColsEven nColsOdd tokens totalPoints fuel
              (writePoint A (travIndex st) p tokens)
              (travStep nColsEven nColsOdd st) rest (pointsRead + 1)
      else (A, pointsRead)

/-- `OrientationMap::readAngData`: buffered-stream decode of the data section
(the stream is positioned at the data start).  `totalPoints = iq.size()`. -/
def readAngDataModel (nColsEven nColsOdd tokens : Nat) (A : AngArrays)
    (stream : List Char) : AngArrays × Nat :=
  readAngDataGo nColsEven nColsOdd tokens A.iq.length A.iq.length A
    (initTrav nColsEven) stream 0

/-- Loop of `readAngDataMemMap`.  The guard is
`pointsRead < totalPoints && bytesRead < fileBytes`; `bytesRead` grows by the
number of bytes the cursor advanced (`data - dStart`).  When there are more
than 10 columns the cursor additionally skips to the next newline (in the C++
this scan is unbounded; on the inputs considered here a newline is always
present).  `fuel` bounds the iteration count by `totalPoints - pointsRead`,
which the guard makes exact. -/
def readAngDataMemMapGo (nColsEven nColsOdd tokens totalPoints fileBytes : Nat) :
    Nat → AngArrays → TravState → List Char → Nat → Nat → AngArrays × Nat
  | 0, A, _, _, pointsRead, _ => (A, pointsRead)
  | fuel + 1, A, st, cursor, pointsRead, bytesRead =>
      if pointsRead < totalPoints && bytesRead < fileBytes then
        let pr := parsePointFields tokens cursor
        let cur3 := if tokens > 10
          then pr.2.dropWhile (fun c => c ≠ '\n') else pr.2
        let consumed := cursor.length - cur3.length
        readAngDataMemMapGo nColsEven nColsOdd tokens totalPoints fileBytes fuel
          (writePoint A (travIndex st) pr.1 tokens)
          (travStep nColsEven nColsOdd st) cur3 (pointsRead + 1)
          (bytesRead + consumed)
      else (A, pointsRead)

/-- `OrientationMap::readAngDataMemMap`: decode over the memory-mapped file.
`dataSec` is the mapped region from byte `offset` (the data section);
`fileBytes` is the mapped file size and `bytesRead` starts at `offset + 1`
("skipped header bytes count towards file size"). -/
def readAngDataMemMapModel (nColsEven nColsOdd tokens : Nat) (A : AngArrays)
    (offset : Nat) (dataSec : List Char) : AngArrays × Nat :=
  readAngDataMemMapGo nColsEven nColsOdd tokens A.iq.length
    (offset + dataSec.length) A.iq.length A (initTrav nColsEven) dataSec 0
    (offset + 1)

/-- Reference scatter: write the records of `ps` one per traversal step.
Both decoders are proved to compute this on well-formed input. -/
def scatterRecords (nColsEven nColsOdd tokens : Nat) :
    AngArrays → TravState → List RawPoint → AngArrays
  | A, _, [] => A
  | A, st, p :: ps =>
      scatterRecords nColsEven nColsOdd tokens
        (writePoint A (travIndex st) p tokens)
        (travStep nColsEven nColsOdd st) ps

/-- Data-section serialization: each line followed by a newline. -/
def joinLines (cs : List (List Char)) : List Char :=
  (cs.map (fun c => c ++ ['\n'])).flatten

/-- One data line from its whitespace-separated fields (single spaces, no
trailing separator). -/
def joinFields : List (List Char) → List Char
  | [] => []
  | [f] => f
  | f :: fs => f ++ ' ' :: joinFields fs

/-- Shape of an exponent part that the model `strtof` consumes in full:
either absent, or `e`/`E`, an optional sign, and a nonempty digit run. -/
def expShape (x : List Char) : Bool :=
  match x with
  | [] => true
  | c :: r =>
      (c = 'e' || c = 'E') &&
      (match r with
       | [] => false
       | c2 :: r2 =>
           if c2 = '+' || c2 = '-' then !r2.isEmpty && r2.all isDigitC
           else (c2 :: r2).all isDigitC)

/-- Shape of an unsigned decimal-float body that the model `strtof`
consumes in full: a digit run, optionally a point and a second digit run
(at least one digit overall), optionally an exponent. -/
def floatBody (m : List Char) : Bool :=
  let d1 := takeDigits m
  let r1 := dropDigits m
  match r1 with
  | [] => !d1.isEmpty
  | c :: r2 =>
      if c = '.' then
        let d2 := takeDigits r2
        let r3 := dropDigits r2
        (!d1.isEmpty || !d2.isEmpty) && expShape r3
      else !d1.isEmpty && expShape r1

/-- A numeric field that `strtof` consumes in full: an optional sign, then
a decimal mantissa with optional exponent (e.g. `1.1`, `-0.5`, `.25`,
`3.`, `2.5E-1`, `12`). -/
def floatField (f : List Char) : Bool :=
  match f with
  | [] => false
  | c :: r => if c = '+' || c = '-' then floatBody r else floatBody (c :: r)

/-- A numeric field that `strtoul(..., 10)` consumes in full: an optional
sign, then a nonempty digit run. -/
def ulongField (f : List Char) : Bool :=
  match f with
  | [] => false
  | c :: r =>
      if c = '+' || c = '-' then !r.isEmpty && r.all isDigitC
      else (c :: r).all isDigitC

/-- Well-formed data line for a column count: exactly `tokens` nonempty
whitespace-free fields; of the at most 10 fields the decoders read, the
eighth (the phase index, 0-based position 7) is an integer field and the
others are decimal-float fields; and the line is short enough for the
512-byte line buffer. -/
def wfLine (tokens : Nat) (L : List (List Char)) : Prop :=
  L.length = tokens ∧
  (∀ f ∈ L, f ≠ [] ∧ ∀ c ∈ f, isSpaceC c = false) ∧
  (∀ j, j < 10 → j ≠ 7 → j < tokens → floatField (L.getD j []) = true) ∧
  ulongField (L.getD 7 []) = true ∧
  (joinFields L).length ≤ 510

instance (tokens : Nat) (L : List (List Char)) : Decidable (wfLine tokens L) := by
  unfold wfLine; infer_instance

/-- The record both decoders extract from a well-formed line with fields
`L`: fields 0-7 always, field 8 into `sem` when more than 8 columns were
counted, field 9 into `fit` when more than 9. -/
def recOfFields (tokens : Nat) (L : List (List Char)) : RawPoint :=
  ⟨L.getD 0 [], L.getD 1 [], L.getD 2 [], L.getD 3 [], L.getD 4 [],
   L.getD 5 [], L.getD 6 [], L.getD 7 [],
   if tokens > 8 then L.getD 8 [] else [],
   if tokens > 9 then L.getD 9 [] else []⟩

/-- Cursor position after `parsePointFields` on a well-formed line with
fields `L` followed by `tail`: everything up to `tail` is consumed when at
most 10 columns are read; with 11 or more columns the fields past the tenth
are still ahead of the cursor (until the newline skip). -/
def afterFields (tokens : Nat) (L : List (List Char)) (tail : List Char) :
    List Char :=
  if tokens ≤ 10 then tail else ' ' :: (joinFields (L.drop 10) ++ tail)


/-!
## Header grammar (`OrientationMap::readAngHeader`, src/tsl.hpp lines 279-436)

Values extracted with `iss >> value` are modelled as follows: numeric
`size_t` targets store the leading digit run of the next token (0 when the
extraction fails, as C++11 value-initializes on failure); every other target
stores the next whitespace-delimited token as a lexeme.  None of the stored
scalar values other than the grid type and the three dimensions influence
control flow, so this abstraction is exact for everything the theorems
state. -/

/-- Characters of a string literal. -/
def chs (s : String) : List Char := s.toList

/-- One phase record (`struct Phase`).  `resize` value-initializes a fresh
record, so all fields start empty/zero before the sub-keys fill them. -/
structure PhaseM where
  num : Nat
  name : Tok
  form : Tok
  info : Tok
  sym : Tok
  lat : List Tok
  hklFam : List (List Tok)
  el : List (List Tok)
  cats : List Nat
deriving DecidableEq

/-- A fresh value-initialized phase with the parsed phase number. -/
def newPhase (num : Nat) : PhaseM :=
  ⟨num, [], [], [], [], [], [], [], []⟩

/-- Parser state of `readAngHeader`: the header fields of the map, the
"seen" flags, and the per-phase progress counters. -/
structure HeaderState where
  pixPerUm : Tok
  xStar : Tok
  yStar : Tok
  zStar : Tok
  workingDistance : Tok
  xStep : Tok
  yStep : Tok
  nColsOdd : Nat
  nColsEven : Nat
  nRows : Nat
  operatorName : Tok
  sampleId : Tok
  scanId : Tok
  gridType : GridTypeM
  phases : List PhaseM
  readPixPerUm : Bool
  readXStar : Bool
  readYStar : Bool
  readZStar : Bool
  readWorkingDistance : Bool
  readXStep : Bool
  readYStep : Bool
  readColsOdd : Bool
  readColsEven : Bool
  readRows : Bool
  readOperatorName : Bool
  readSampleId : Bool
  readScanId : Bool
  readGridType : Bool
  readPhaseSymmetry : Bool
  readPhaseMaterial : Bool
  readPhaseFormula : Bool
  readPhaseInfo : Bool
  readPhaseLattice : Bool
  readPhaseHkl : Bool
  readPhaseCategories : Bool
  targetFamilies : Nat
  phaseElasticCount : Nat
deriving DecidableEq

/-- State at the top of `readAngHeader`: no top-level key seen, phase flags
true and `phaseElasticCount = 6` "in case there are no phases listed".
The scalar members of a fresh `OrientationMap` are uninitialized in C++
except `gridType` (set to `Unknown` by the constructor); they are modelled
as empty/zero and are never read before being written on any path a theorem
mentions. -/
def initHeaderState : HeaderState :=
  { pixPerUm := [], xStar := [], yStar := [], zStar := [],
    workingDistance := [], xStep := [], yStep := [],
    nColsOdd := 0, nColsEven := 0, nRows := 0,
    operatorName := [], sampleId := [], scanId := [],
    gridType := .Unknown, phases := [],
    readPixPerUm := false, readXStar := false, readYStar := false,
    readZStar := false, readWorkingDistance := false,
    readXStep := false, readYStep := false,
    readColsOdd := false, readColsEven := false, readRows := false,
    readOperatorName := false, readSampleId := false, readScanId := false,
    readGridType := false,
    readPhaseSymmetry := true, readPhaseMaterial := true,
    readPhaseFormula := true, readPhaseInfo := true,
    readPhaseLattice := true, readPhaseHkl := true,
    readPhaseCategories := true,
    targetFamilies := 0, phaseElasticCount := 6 }

/-- The `std::runtime_error`s the reader can throw, as structured values;
each constructor carries exactly the data interpolated into the message. -/
inductive AngError
  | missingPhaseField (field : String) (phaseIdx : Nat)
  | unknownKeyword (keyword : Tok)
  | missingHeaderValue (field : String)
  | tooFewColumns (colCount : Nat)
  | unsupportedGridType
  | truncatedData (actual expected : Nat)
deriving DecidableEq

/-- Apply an update to `phaseList.back()`.  Calling `back()` on an empty
list is undefined behavior in C++; the model makes it a no-op (no theorem
below exercises that path). -/
def updateLastPhase : List PhaseM → (PhaseM → PhaseM) → List PhaseM
  | [], _ => []
  | [p], f => [f p]
  | p :: q :: rest, f => p :: updateLastPhase (q :: rest) f

/-- Next whitespace-delimited token of `iss >> token`, with the rest of the
line. -/
def nextTokOf (s : List Char) : Option (List Char × List Char) :=
  let b := s.dropWhile isSpaceC
  match b with
  | [] => none
  | _ => some (b.takeWhile (fun c => !isSpaceC c),
               b.dropWhile (fun c => !isSpaceC c))

/-- Lexeme stored by `iss >> stringOrFloat` (empty when extraction fails). -/
def tokValOf (s : List Char) : Tok :=
  ((nextTokOf s).map Prod.fst).getD []

/-- Numeric value of a digit character. -/
def digitVal (c : Char) : Nat :=
  if c = '1' then 1 else if c = '2' then 2 else if c = '3' then 3
  else if c = '4' then 4 else if c = '5' then 5 else if c = '6' then 6
  else if c = '7' then 7 else if c = '8' then 8 else if c = '9' then 9
  else 0

/-- Value of a digit run. -/
def natOfDigits (l : List Char) : Nat :=
  l.foldl (fun n c => 10 * n + digitVal c) 0

/-- `iss >> sizeT`: skip whitespace, read a digit run. -/
def parseNatOf (s : List Char) : Option (Nat × List Char) :=
  let b := s.dropWhile isSpaceC
  let d := takeDigits b
  if d.isEmpty then none else some (natOfDigits d, dropDigits b)

/-- Stored value of a `size_t` extraction (0 on failure, as C++11 does). -/
def natValOr0 (s : List Char) : Nat :=
  ((parseNatOf s).map Prod.fst).getD 0

/-- `std::istream_iterator<size_t>` sequence: integers until the first
failed extraction. -/
def parseNatListGo : Nat → List Char → List Nat
  | 0, _ => []
  | fuel + 1, s =>
      match parseNatOf s with
      | none => []
      | some (n, r) => n :: parseNatListGo fuel r

/-- All integers readable from the line tail (fuel is ample: every success
consumes at least one character). -/
def parseNatListOf (s : List Char) : List Nat :=
  parseNatListGo (s.length + 1) s

/-- Up to `n` further tokens of the line (extraction stops at the first
failure, leaving later targets at their previous values). -/
def tokListN : Nat → List Char → List Tok
  | 0, _ => []
  | k + 1, s =>
      match nextTokOf s with
      | none => []
      | some (t, r) => t :: tokListN k r

/-- `operator>>(istream, GridType)` (src/tsl.hpp lines 170-177): the token
`SqrGrid` or `HexGrid`, anything else (including a failed extraction)
giving `Unknown`. -/
def gridOfTok (t : Tok) : GridTypeM :=
  if t = chs "SqrGrid" then .Square
  else if t = chs "HexGrid" then .Hexagonal
  else .Unknown

/-- Number of phases parsed into the last phase's family list. -/
def lastPhaseFamilies (ps : List PhaseM) : Nat :=
  ((ps.getLast?).map (fun p => p.hklFam.length)).getD 0

/-- The six per-phase field checks shared by the phase-boundary validation
(src/tsl.hpp lines 329-334 and 336 is split below) and the header-end
validation (lines 392-397), in source order. -/
def phaseCommonChecks (S : HeaderState) : Option AngError :=
  let idx := S.phases.length
  if !S.readPhaseMaterial then some (.missingPhaseField "material name" idx)
  else if !S.readPhaseFormula then some (.missingPhaseField "formula" idx)
  else if !S.readPhaseInfo then some (.missingPhaseField "info" idx)
  else if !S.readPhaseSymmetry then some (.missingPhaseField "symmetry" idx)
  else if !S.readPhaseLattice then
    some (.missingPhaseField "lattice constants" idx)
  else if !S.readPhaseHkl then some (.missingPhaseField "hkl families" idx)
  else none

/-- The family-count comparison run when the phase list is nonempty
(src/tsl.hpp lines 337-340 and 400-403): it fires when `targetFamilies`
is smaller than the number of families actually accumulated. -/
def phaseFamilyCheck (S : HeaderState) : Option AngError :=
  if !S.phases.isEmpty && S.targetFamilies < lastPhaseFamilies S.phases then
    some (.missingPhaseField "some hkl families" S.phases.length)
  else none

/-- Validation of the previous phase run when a `Phase` key starts a new
record (src/tsl.hpp lines 326-340): the six field checks, the
elastic-constant row count, the categories flag, then the family count. -/
def phaseBoundaryChecks (S : HeaderState) : Option AngError :=
  match phaseCommonChecks S with
  | some e => some e
  | none =>
      if S.phaseElasticCount ≠ 6 then
        some (.missingPhaseField "elastic constants" S.phases.length)
      else if !S.readPhaseCategories then
        some (.missingPhaseField "categories" S.phases.length)
      else phaseFamilyCheck S

/-- Validation of the final phase at header end (src/tsl.hpp lines
389-403).  The elastic-constant count and categories checks present at a
phase boundary are commented out in the source (lines 398-399), so only
the six field checks and the family count run here. -/
def finalPhaseChecks (S : HeaderState) : Option AngError :=
  match phaseCommonChecks S with
  | some e => some e
  | none => phaseFamilyCheck S

/-- The mandatory top-level key checks (src/tsl.hpp lines 406-419), in
source order, with the exact field names the messages carry (the trailing
colon of the keyword is not part of the message). -/
def missingChecks (S : HeaderState) : Option AngError :=
  if !S.readPixPerUm then some (.missingHeaderValue "TEM_PIXperUM")
  else if !S.readXStar then some (.missingHeaderValue "x-star")
  else if !S.readYStar then some (.missingHeaderValue "y-star")
  else if !S.readZStar then some (.missingHeaderValue "z-star")
  else if !S.readWorkingDistance then
    some (.missingHeaderValue "WorkingDistance")
  else if !S.readGridType then some (.missingHeaderValue "GRID")
  else if !S.readXStep then some (.missingHeaderValue "XSTEP")
  else if !S.readYStep then some (.missingHeaderValue "YSTEP")
  else if !S.readColsOdd then some (.missingHeaderValue "NCOLS_ODD")
  else if !S.readColsEven then some (.missingHeaderValue "NCOLS_EVEN")
  else if !S.readRows then some (.missingHeaderValue "NROWS")
  else if !S.readOperatorName then some (.missingHeaderValue "OPERATOR")
  else if !S.readSampleId then some (.missingHeaderValue "SAMPLEID")
  else if !S.readScanId then some (.missingHeaderValue "SCANID")
  else none

/-- Dispatch of one header line (src/tsl.hpp lines 307-386): drop the `#`,
read the keyword, update the state.  A blank line is skipped; an
unrecognized keyword is fatal.  The `Categories` branch matches any token
whose first 10 characters are `Categories` and re-reads the payload from
the character right after them ("tsl doesn't print space between
categories and first number"). -/
def processHeaderLine (S : HeaderState) (line : List Char) :
    Except AngError HeaderState :=
  let body := line.drop 1
  match nextTokOf body with
  | none => .ok S
  | some (token, rest) =>
      if token = chs "TEM_PIXperUM" then
        .ok { S with pixPerUm := tokValOf rest, readPixPerUm := true }
      else if token = chs "x-star" then
        .ok { S with xStar := tokValOf rest, readXStar := true }
      else if token = chs "y-star" then
        .ok { S with yStar := tokValOf rest, readYStar := true }
      else if token = chs "z-star" then
        .ok { S with zStar := tokValOf rest, readZStar := true }
      else if token = chs "WorkingDistance" then
        .ok { S with workingDistance := tokValOf rest,
                     readWorkingDistance := true }
      else if token = chs "GRID:" then
        .ok { S with gridType := gridOfTok (tokValOf rest),
                     readGridType := true }
      else if token = chs "XSTEP:" then
        .ok { S with xStep := tokValOf rest, readXStep := true }
      else if token = chs "YSTEP:" then
        .ok { S with yStep := tokValOf rest, readYStep := true }
      else if token = chs "NCOLS_ODD:" then
        .ok { S with nColsOdd := natValOr0 rest, readColsOdd := true }
      else if token = chs "NCOLS_EVEN:" then
        .ok { S with nColsEven := natValOr0 rest, readColsEven := true }
      else if token = chs "NROWS:" then
        .ok { S with nRows := natValOr0 rest, readRows := true }
      else if token = chs "OPERATOR:" then
        .ok { S with operatorName := tokValOf rest, readOperatorName := true }
      else if token = chs "SAMPLEID:" then
        .ok { S with sampleId := tokValOf rest, readSampleId := true }
      else if token = chs "SCANID:" then
        .ok { S with scanId := tokValOf rest, readScanId := true }
      else if token = chs "Phase" then
        match phaseBoundaryChecks S with
        | some e => .error e
        | none =>
            .ok { S with
              targetFamilies := 0, phaseElasticCount := 0,
              readPhaseSymmetry := false, readPhaseMaterial := false,
              readPhaseFormula := false, readPhaseInfo := false,
              readPhaseLattice := false, readPhaseHkl := false,
              readPhaseCategories := false,
              phases := S.phases ++ [newPhase (natValOr0 rest)] }
      else if token = chs "MaterialName" then
        .ok { S with
          phases := updateLastPhase S.phases
            (fun p => { p with name := tokValOf rest }),
          readPhaseMaterial := true }
      else if token = chs "Formula" then
        .ok { S with
          phases := updateLastPhase S.phases
            (fun p => { p with form := tokValOf rest }),
          readPhaseFormula := true }
      else if token = chs "Info" then
        .ok { S with
          phases := updateLastPhase S.phases
            (fun p => { p with info := tokValOf rest }),
          readPhaseInfo := true }
      else if token = chs "Symmetry" then
        .ok { S with
          phases := updateLastPhase S.phases
            (fun p => { p with sym := tokValOf rest }),
          readPhaseSymmetry := true }
      else if token = chs "NumberFamilies" then
        .ok { S with targetFamilies := natValOr0 rest, readPhaseHkl := true }
      else if token = chs "LatticeConstants" then
        .ok { S with
          phases := updateLastPhase S.phases
            (fun p => { p with lat := tokListN 6 rest }),
          readPhaseLattice := true }
      else if token = chs "hklFamilies" then
        .ok { S with
          phases := updateLastPhase S.phases
            (fun p => { p with hklFam := p.hklFam ++ [tokListN 6 rest] }) }
      else if token = chs "ElasticConstants" then
        .ok { S with
          phases := updateLastPhase S.phases
            (fun p => { p with el := p.el ++ [tokListN 6 rest] }),
          phaseElasticCount := S.phaseElasticCount + 1 }
      else if token.take 10 = chs "Categories" then
        .ok { S with
          phases := updateLastPhase S.phases
            (fun p => { p with
              cats := p.cats ++ parseNatListOf (token.drop 10 ++ rest) }),
          readPhaseCategories := true }
      else .error (.unknownKeyword token)

/-- The header loop `while('#' == is.peek())`: read a line (512-byte
buffer, not success-checked in the source) and process it.  On an overlong
line `getline` stores 511 characters, processes them, and leaves the stream
failed, so the next peek ends the loop: the `Bool` records whether the
stream is still good.  Each iteration consumes at least one character, so
`fuel = length + 1` never runs out. -/
def readAngHeaderGo :
    Nat → HeaderState → List Char → Except AngError (HeaderState × List Char × Bool)
  | 0, S, s => .ok (S, s, true)
  | fuel + 1, S, s =>
      match s with
      | '#' :: _ =>
          let pre := s.takeWhile (fun c => c ≠ '\n')
          if 511 ≤ pre.length then
            match processHeaderLine S (pre.take 511) with
            | .error e => .error e
            | .ok S2 => .ok (S2, s.drop 511, false)
          else
            match processHeaderLine S pre with
            | .error e => .error e
            | .ok S2 => readAngHeaderGo fuel S2 ((s.drop pre.length).drop 1)
      | _ => .ok (S, s, true)

/-- Token count of `while(iss >> token) tokenCount++`. -/
def countToksGo : Nat → List Char → Nat
  | 0, _ => 0
  | fuel + 1, s =>
      match nextTokOf s with
      | none => 0
      | some (_, r) => countToksGo fuel r + 1

/-- Number of whitespace-delimited tokens in a line. -/
def countToks (s : List Char) : Nat := countToksGo (s.length + 1) s

/-- The first data line, extracted into the 512-byte buffer without
advancing the stream (the source saves `tellg` and seeks back). -/
def firstDataLine (s : List Char) : List Char :=
  (s.takeWhile (fun c => c ≠ '\n')).take 511

/-- `OrientationMap::readAngHeader` on the full file contents: run the
header loop, validate the final phase, validate the mandatory keys, then
count the columns of the first data line (at least 8 required).  Returns
the token count, the final state and the unconsumed stream (the data
section).  When the header loop left the stream failed (overlong line) the
data-line extraction yields nothing harvestable and the token count is 0. -/
def readAngHeaderModel (contents : List Char) :
    Except AngError (Nat × HeaderState × List Char) :=
  match readAngHeaderGo (contents.length + 1) initHeaderState contents with
  | .error e => .error e
  | .ok (S, rest, ok) =>
      match finalPhaseChecks S with
      | some e => .error e
      | none =>
          match missingChecks S with
          | some e => .error e
          | none =>
              let dataLine := if ok then firstDataLine rest else []
              let tokenCount := countToks dataLine
              if tokenCount < 8 then .error (.tooFewColumns tokenCount)
              else .ok (tokenCount, S, rest)

/-!
## File-type dispatch and the read pipeline
(`getFileType`, src/tsl.hpp lines 194-206; `OrientationMap::read`, lines
239-253; `OrientationMap::readAng`, lines 258-274)
-/

/-- `getFileType`: extension after the last dot, lowercased, mapped to a
file type. -/
def getFileTypeM (fileName : String) : FileTypeM :=
  let l := fileName.toList
  let revExt := l.reverse.takeWhile (fun c => c ≠ '.')
  if revExt.length = l.length then .Unknown
  else
    let ext := revExt.reverse.map Char.toLower
    if ext = chs "ang" then .Ang
    else if ext = chs "osc" then .Osc
    else if ext = chs "hdf" then .Hdf
    else if ext = chs "hdf5" then .Hdf
    else if ext = chs "h5" then .Hdf
    else .Unknown

/-- `OrientationMap::readAng` with the compiled-in `UseMemMap = true` path:
parse the header, allocate, then decode via the memory map starting at the
header's end offset. -/
def readAngModel (contents : List Char) :
    Except AngError (AngArrays × HeaderState × Nat) :=
  match readAngHeaderModel contents with
  | .error e => .error e
  | .ok (tokenCount, S, rest) =>
      match allocateModel S.gridType S.nColsOdd S.nColsEven S.nRows
          tokenCount with
      | none => .error .unsupportedGridType
      | some A =>
          let offset := contents.length - rest.length
          let (A2, n) := readAngDataMemMapModel S.nColsEven S.nColsOdd
            tokenCount A offset rest
          .ok (A2, S, n)

/-- The arrays of a freshly constructed `OrientationMap` (all empty). -/
def emptyArrays : AngArrays := ⟨[], [], [], [], [], [], [], []⟩

/-- `OrientationMap::read` on a fresh map.  The `switch` dispatches `.ang`
files to `readAng`; for every other file type the `default:` branch merely
constructs a `std::runtime_error` without throwing it (src/tsl.hpp line
244), so execution falls through to the truncation check with
`pointsRead = 0` and untouched (empty) arrays.  The truncation check
compares `pointsRead` against `iq.size()`. -/
def readModel (fileName : String) (contents : List Char) :
    Except AngError (AngArrays × Nat) :=
  match (match getFileTypeM fileName with
    | .Ang => (readAngModel contents).map
        (fun (r : AngArrays × HeaderState × Nat) => (r.1, r.2.2))
    | _ => .ok (emptyArrays, 0)) with
  | .error e => .error e
  | .ok (A, pointsRead) =>
      if pointsRead < A.iq.length then
        .error (.truncatedData pointsRead A.iq.length)
      else .ok (A, pointsRead)

/-!
## Concrete files used by the witnesses and counterexamples
-/

/-- Join lines with trailing newlines. -/
def joinNL (ls : List String) : String :=
  String.join (ls.map (fun l => l ++ "\n"))

/-- A complete set of the 14 mandatory header lines, in file order. -/
def mandatoryLines : List String :=
  ["# TEM_PIXperUM 1.0",
   "# x-star 0.5",
   "# y-star 0.5",
   "# z-star 0.5",
   "# WorkingDistance 15.0",
   "# GRID: SqrGrid",
   "# XSTEP: 1.0",
   "# YSTEP: 1.0",
   "# NCOLS_ODD: 2",
   "# NCOLS_EVEN: 2",
   "# NROWS: 2",
   "# OPERATOR: op",
   "# SAMPLEID: sample",
   "# SCANID: scan"]

/-- The field names of the 14 mandatory keys as they appear in the
`missing ang header value ...` messages, in the same order as
`mandatoryLines` (the keyword's trailing colon is not in the message). -/
def mandatoryFieldNames : List String :=
  ["TEM_PIXperUM", "x-star", "y-star", "z-star", "WorkingDistance",
   "GRID", "XSTEP", "YSTEP", "NCOLS_ODD", "NCOLS_EVEN", "NROWS",
   "OPERATOR", "SAMPLEID", "SCANID"]

/-- A well-formed 8-column data line. -/
def dataLine8 : String := "1.1 2.2 3.3 0.0 0.0 50.0 0.5 0"

/-- A 2-by-2 square-grid file with its full 4 data points. -/
def demoContents : List Char :=
  (joinNL mandatoryLines ++ joinNL [dataLine8, dataLine8, dataLine8, dataLine8]).toList

/-- The same file with only 3 of the expected 4 data points. -/
def truncContents : List Char :=
  (joinNL mandatoryLines ++ joinNL [dataLine8, dataLine8, dataLine8]).toList

/-- Arrays produced by reading `truncContents` (used to instantiate the C5
theorem at a concrete file). -/
def truncArrays : AngArrays :=
  match readAngModel truncContents with
  | .ok (A, _, _) => A
  | .error _ => emptyArrays

/-- Header state produced by reading `truncContents`. -/
def truncState : HeaderState :=
  match readAngModel truncContents with
  | .ok (_, S, _) => S
  | .error _ => initHeaderState

/-- The complete header with the mandatory line at position `i` omitted,
followed by one valid data line. -/
def headerOmitting (i : Nat) : List Char :=
  (joinNL (mandatoryLines.eraseIdx i) ++ joinNL [dataLine8]).toList

/-- A phase block supplying everything except its elastic-constant rows and
its categories. -/
def phaseLinesNoCats : List String :=
  ["# Phase 1",
   "# MaterialName Copper",
   "# Formula Cu",
   "# Info none",
   "# Symmetry 43",
   "# NumberFamilies 0",
   "# LatticeConstants 3.6 3.6 3.6 90 90 90"]

/-- File whose single (final) phase lacks elastic constants and
categories. -/
def c3Contents : List Char :=
  (joinNL (mandatoryLines ++ phaseLinesNoCats) ++
    joinNL [dataLine8, dataLine8, dataLine8, dataLine8]).toList

/-- The same phase followed by a second `Phase` key, so the boundary
validation runs on it. -/
def c3BoundaryContents : List Char :=
  (joinNL (mandatoryLines ++ phaseLinesNoCats ++ ["# Phase 2"]) ++
    joinNL [dataLine8]).toList

/-- A complete phase block that declares `NumberFamilies 2` but supplies
only one `hklFamilies` line. -/
def phaseLinesFewFams : List String :=
  ["# Phase 1",
   "# MaterialName Copper",
   "# Formula Cu",
   "# Info none",
   "# Symmetry 43",
   "# NumberFamilies 2",
   "# LatticeConstants 3.6 3.6 3.6 90 90 90",
   "# hklFamilies 1 1 1 1 8.0 1",
   "# ElasticConstants 1 2 3 4 5 6",
   "# ElasticConstants 1 2 3 4 5 6",
   "# ElasticConstants 1 2 3 4 5 6",
   "# ElasticConstants 1 2 3 4 5 6",
   "# ElasticConstants 1 2 3 4 5 6",
   "# ElasticConstants 1 2 3 4 5 6",
   "# Categories1 2 3 4 5"]

/-- File whose phase under-supplies its declared HKL families. -/
def c4Contents : List Char :=
  (joinNL (mandatoryLines ++ phaseLinesFewFams) ++ joinNL [dataLine8]).toList

/-- The same phase with three `hklFamilies` lines against a declared count
of 2 (over-supply). -/
def c4OverContents : List Char :=
  (joinNL (mandatoryLines ++ phaseLinesFewFams ++
    ["# hklFamilies 2 0 0 1 8.0 1", "# hklFamilies 2 2 0 1 8.0 1"]) ++
    joinNL [dataLine8]).toList

/-- Final header state of `c4Contents` (exhibits the declared/supplied
mismatch the parse accepted). -/
def c4State : HeaderState :=
  match readAngHeaderModel c4Contents with
  | .ok (_, S, _) => S
  | .error _ => initHeaderState

/-- Final header state of `c3Contents` (its only phase never saw an
`ElasticConstants` row or a `Categories` key). -/
def c3State : HeaderState :=
  match readAngHeaderModel c3Contents with
  | .ok (_, S, _) => S
  | .error _ => initHeaderState

/-- A data section for the decoder-divergence counterexample: one complete
8-field line whose newline is preceded by a single trailing space. -/
def c2Data : List Char := (String.toList "1 2 3 4 5 6 7 8 \n")

/-- Two well-formed 8-field data lines, as field lists (used to instantiate
the decoder-equivalence theorem at a concrete data section with ordinary
decimal-float fields). -/
def demoFieldLines : List (List (List Char)) :=
  [[chs "1.1", chs "2.2", chs "3.3", chs "0.0", chs "0.0", chs "50.0",
    chs "0.5", chs "0"],
   [chs "-0.5", chs "1.5e1", chs "2.5E-1", chs ".25", chs "12.", chs "60.0",
    chs "0.9", chs "1"]]

/-- The "seen" flags of the 14 mandatory top-level keys, in the order the
missing-value checks run (which is also the order of `mandatoryLines` and
`mandatoryFieldNames`). -/
def mandatoryFlag (i : Fin 14) (S : HeaderState) : Bool :=
  [S.readPixPerUm, S.readXStar, S.readYStar, S.readZStar,
   S.readWorkingDistance, S.readGridType, S.readXStep, S.readYStep,
   S.readColsOdd, S.readColsEven, S.readRows, S.readOperatorName,
   S.readSampleId, S.readScanId].getD i.val false

/-- A header state that has seen the first five mandatory keys and not the
grid type (used to instantiate the missing-key theorem concretely). -/
def c6State : HeaderState :=
  { initHeaderState with
    readPixPerUm := true, readXStar := true, readYStar := true,
    readZStar := true, readWorkingDistance := true }

/-!
## Closed form of the traversal
-/

/-- Boolean parity of a traversal row: the value of `evenRow` while row `r`
is being filled. -/
def rowParity (r : Nat) : Bool := decide (r % 2 = 0)

theorem rowWidth_pos {e o : Nat} (he : 1 ≤ e) (ho : 1 ≤ o) (r : Nat) :
    1 ≤ rowWidth e o r := by
  unfold rowWidth; split <;> assumption

theorem rowParity_succ (r : Nat) : rowParity (r + 1) = !rowParity r := by
  by_cases h : r % 2 = 0
  · have h2 : (r + 1) % 2 = 1 := by omega
    simp [rowParity, h, h2]
  · have h2 : (r + 1) % 2 = 0 := by omega
    simp [rowParity, h, h2]

theorem if_rowParity (e o r : Nat) :
    (if rowParity r then e else o) = rowWidth e o r := by
  unfold rowParity rowWidth
  by_cases h : r % 2 = 0 <;> simp [h]

theorem travStep_wrap (e o R : Nat) :
    travStep e o ⟨rowParity R, prefixPts e o R, 0⟩ =
      ⟨rowParity (R + 1), prefixPts e o (R + 1), rowWidth e o (R + 1) - 1⟩ := by
  by_cases h : R % 2 = 0
  · have h1 : (R + 1) % 2 = 1 := by omega
    simp [travStep, rowParity, rowWidth, prefixPts, h, h1]
  · have h0 : R % 2 = 1 := by omega
    have h1 : (R + 1) % 2 = 0 := by omega
    simp [travStep, rowParity, rowWidth, prefixPts, h, h0, h1]

theorem travStep_noWrap (e o : Nat) (b : Bool) (crp c : Nat) (h : c ≠ 0) :
    travStep e o ⟨b, crp, c⟩ = ⟨b, crp, c - 1⟩ := by
  unfold travStep; simp [h]

theorem trav_inRowFrom (e o R : Nat)
    (h0 : (travStep e o)^[prefixPts e o R] (initTrav e) =
      ⟨rowParity R, prefixPts e o R, rowWidth e o R - 1⟩) :
    ∀ k, k < rowWidth e o R →
      (travStep e o)^[prefixPts e o R + k] (initTrav e) =
        ⟨rowParity R, prefixPts e o R, rowWidth e o R - 1 - k⟩ := by
  intro k
  induction k with
  | zero => intro _; simpa using h0
  | succ k ih =>
    intro hk
    have hk' : k < rowWidth e o R := by omega
    have hstep : prefixPts e o R + (k + 1) = (prefixPts e o R + k) + 1 := rfl
    rw [hstep, Function.iterate_succ_apply', ih hk',
      travStep_noWrap e o _ _ _ (by omega)]
    have harith : rowWidth e o R - 1 - k - 1 = rowWidth e o R - 1 - (k + 1) := by
      omega
    rw [harith]

theorem trav_rowStart (e o : Nat) (he : 1 ≤ e) (ho : 1 ≤ o) :
    ∀ R, (travStep e o)^[prefixPts e o R] (initTrav e) =
      ⟨rowParity R, prefixPts e o R, rowWidth e o R - 1⟩ := by
  intro R
  induction R with
  | zero => simp [initTrav, prefixPts, rowParity, rowWidth]
  | succ R ih =>
    have hw : 1 ≤ rowWidth e o R := rowWidth_pos he ho R
    have hlast := trav_inRowFrom e o R ih (rowWidth e o R - 1) (by omega)
    have hzero : rowWidth e o R - 1 - (rowWidth e o R - 1) = 0 := by omega
    rw [hzero] at hlast
    have hdef : prefixPts e o (R + 1) = prefixPts e o R + rowWidth e o R := rfl
    have hsplit : prefixPts e o (R + 1) =
        (prefixPts e o R + (rowWidth e o R - 1)) + 1 := by omega
    calc (travStep e o)^[prefixPts e o (R + 1)] (initTrav e)
        = (travStep e o)^[(prefixPts e o R + (rowWidth e o R - 1)) + 1]
            (initTrav e) := by rw [← hsplit]
      _ = travStep e o ((travStep e o)^[prefixPts e o R + (rowWidth e o R - 1)]
            (initTrav e)) := Function.iterate_succ_apply' _ _ _
      _ = travStep e o ⟨rowParity R, prefixPts e o R, 0⟩ := by rw [hlast]
      _ = ⟨rowParity (R + 1), prefixPts e o (R + 1), rowWidth e o (R + 1) - 1⟩ :=
            travStep_wrap e o R

theorem trav_state_closed (e o : Nat) (he : 1 ≤ e) (ho : 1 ≤ o)
    (R k : Nat) (hk : k < rowWidth e o R) :
    (travStep e o)^[prefixPts e o R + k] (initTrav e) =
      ⟨rowParity R, prefixPts e o R, rowWidth e o R - 1 - k⟩ :=
  trav_inRowFrom e o R (trav_rowStart e o he ho R) k hk

theorem angIndex_closed (e o : Nat) (he : 1 ≤ e) (ho : 1 ≤ o)
    (R k : Nat) (hk : k < rowWidth e o R) :
    angIndex e o (prefixPts e o R + k) =
      prefixPts e o R + (rowWidth e o R - 1 - k) := by
  unfold angIndex
  rw [trav_state_closed e o he ho R k hk]
  rfl

theorem prefixPts_mono (e o : Nat) {r R : Nat} (h : r ≤ R) :
    prefixPts e o r ≤ prefixPts e o R := by
  induction R with
  | zero =>
    have hr : r = 0 := by omega
    simp [hr]
  | succ R ih =>
    rcases Nat.lt_or_ge r (R + 1) with hl | hg
    · have h1 := ih (by omega)
      have hdef : prefixPts e o (R + 1) = prefixPts e o R + rowWidth e o R := rfl
      omega
    · have hr : r = R + 1 := by omega
      simp [hr]

theorem prefixPts_decompose (e o : Nat) :
    ∀ R n, n < prefixPts e o R →
      ∃ r k, r < R ∧ k < rowWidth e o r ∧ n = prefixPts e o r + k := by
  intro R
  induction R with
  | zero => intro n hn; simp [prefixPts] at hn
  | succ R ih =>
    intro n hn
    rcases Nat.lt_or_ge n (prefixPts e o R) with hl | hg
    · obtain ⟨r, k, hr, hk, heq⟩ := ih n hl
      exact ⟨r, k, by omega, hk, heq⟩
    · refine ⟨R, n - prefixPts e o R, by omega, ?_, by omega⟩
      have : prefixPts e o (R + 1) = prefixPts e o R + rowWidth e o R := rfl
      omega

theorem angIndex_lt_of_aligned (e o : Nat) (he : 1 ≤ e) (ho : 1 ≤ o)
    (R n : Nat) (hn : n < prefixPts e o R) :
    angIndex e o n < prefixPts e o R := by
  obtain ⟨r, k, hr, hk, heq⟩ := prefixPts_decompose e o R n hn
  subst heq
  rw [angIndex_closed e o he ho r k hk]
  have hnext : prefixPts e o (r + 1) = prefixPts e o r + rowWidth e o r := rfl
  have hmono := prefixPts_mono e o (show r + 1 ≤ R by omega)
  omega

theorem prefixPts_const (e r : Nat) : prefixPts e e r = r * e := by
  induction r with
  | zero => simp [prefixPts]
  | succ r ih =>
    have : prefixPts e e (r + 1) = prefixPts e e r + rowWidth e e r := rfl
    have hw : rowWidth e e r = e := by unfold rowWidth; split <;> rfl
    rw [this, ih, hw]; ring

theorem prefixPts_pair (e o m : Nat) : prefixPts e o (2 * m) = m * (e + o) := by
  induction m with
  | zero => simp [prefixPts]
  | succ m ih =>
    have h2 : 2 * (m + 1) = (2 * m + 1) + 1 := by ring
    rw [h2]
    have ha : prefixPts e o ((2 * m + 1) + 1) =
        prefixPts e o (2 * m + 1) + rowWidth e o (2 * m + 1) := rfl
    have hb : prefixPts e o (2 * m + 1) =
        prefixPts e o (2 * m) + rowWidth e o (2 * m) := rfl
    have hwe : rowWidth e o (2 * m) = e := by
      unfold rowWidth; simp [Nat.mul_mod_right]
    have hwo : rowWidth e o (2 * m + 1) = o := by
      unfold rowWidth
      have : (2 * m + 1) % 2 = 1 := by omega
      simp [this]
    rw [ha, hb, hwe, hwo, ih]; ring

/-!
## Claim theorems: allocation and traversal
-/

/-- C7: for all non-negative odd-column, even-column and row counts,
allocation under the Square grid type computes
`totalPoints = max(nColsOdd, nColsEven) * nRows` and sizes the mandatory
arrays to `totalPoints`, with the orientation array at `3 * totalPoints`. -/
theorem C7_square_allocation (nColsOdd nColsEven nRows tokenCount : Nat) :
    ∃ A, allocateModel .Square nColsOdd nColsEven nRows tokenCount = some A ∧
      A.eu.length = 3 * (max nColsOdd nColsEven * nRows) ∧
      A.x.length = max nColsOdd nColsEven * nRows ∧
      A.y.length = max nColsOdd nColsEven * nRows ∧
      A.iq.length = max nColsOdd nColsEven * nRows ∧
      A.ci.length = max nColsOdd nColsEven * nRows ∧
      A.phase.length = max nColsOdd nColsEven * nRows := by
  refine ⟨mkArrays (max nColsOdd nColsEven * nRows) tokenCount, rfl, ?_⟩
  simp [mkArrays]

/-- C8: for all non-negative odd-column, even-column and row counts,
allocation under the Hexagonal grid type computes
`totalPoints = (nRows / 2) * (nColsOdd + nColsEven)`, plus `nColsOdd` when
`nRows` is odd, and sizes the arrays accordingly. -/
theorem C8_hexagonal_allocation (nColsOdd nColsEven nRows tokenCount : Nat) :
    ∃ A, allocateModel .Hexagonal nColsOdd nColsEven nRows tokenCount = some A ∧
      A.iq.length = (nRows / 2) * (nColsOdd + nColsEven) +
        (if nRows % 2 = 1 then nColsOdd else 0) ∧
      A.eu.length = 3 * A.iq.length := by
  refine ⟨mkArrays ((nRows / 2) * (nColsOdd + nColsEven) +
    (if nRows % 2 = 1 then nColsOdd else 0)) tokenCount, rfl, ?_⟩
  simp [mkArrays]

/-- C9: both decoders advance the shared traversal state with `travStep`
and write at `travIndex`, so the n-th record's index is `angIndex n`.  This
theorem gives the closed form the claim describes: writing
`n = prefixPts R + k` with `k < rowWidth R` (row widths alternate starting
from `nColsEven`, `prefixPts` accumulates the widths of completed rows),
the n-th record receives index `prefixPts R + (rowWidth R - 1 - k)`:
within each row the column index decreases from `rowWidth R - 1` down to 0
on top of the accumulator of points completed in prior rows. -/
theorem C9_traversal_closed_form (nColsEven nColsOdd : Nat)
    (he : 1 ≤ nColsEven) (ho : 1 ≤ nColsOdd) (R k : Nat)
    (hk : k < rowWidth nColsEven nColsOdd R) :
    angIndex nColsEven nColsOdd (prefixPts nColsEven nColsOdd R + k) =
      prefixPts nColsEven nColsOdd R +
        (rowWidth nColsEven nColsOdd R - 1 - k) :=
  angIndex_closed nColsEven nColsOdd he ho R k hk

/-- Witness for C9 at `nColsEven = 2`, `nColsOdd = 3`, row 1, second record
of the row: record 3 receives index `2 + (3 - 1 - 1) = 3`. -/
theorem C9_traversal_closed_form_witness :
    angIndex 2 3 (prefixPts 2 3 1 + 1) =
      prefixPts 2 3 1 + (rowWidth 2 3 1 - 1 - 1) :=
  C9_traversal_closed_form 2 3 (by decide) (by decide) 1 1 (by decide)

/-- C10 fails on the code: on a Square grid with `nColsOdd = 1`,
`nColsEven = 3`, `nRows = 2`, allocation yields `totalPoints = 6`, yet the
traversal hands record 4 (which both decode loops process, since
`4 < totalPoints`) the array index 6, one past the end of every mandatory
array. -/
theorem C10_square_out_of_bounds :
    totalPointsOf .Square 1 3 2 = some 6 ∧ 4 < 6 ∧
      ¬ angIndex 3 1 4 < 6 := by
  decide

/-- C10 amended: with positive column counts, every index the decoders
write during point decoding is below the allocated `totalPoints` provided
the traversal geometry matches the allocation geometry — on a Square grid
when the two column counts are equal, and on a Hexagonal grid when the row
count is even or the two column counts are equal.  (The counterexample
`C10_square_out_of_bounds` shows the unrestricted claim is false for
square grids with unequal counts; hexagonal grids with an odd row count
and unequal counts fail the same way.) -/
theorem C10_index_bound (grid : GridTypeM) (nColsOdd nColsEven nRows tp n : Nat)
    (he : 1 ≤ nColsEven) (ho : 1 ≤ nColsOdd)
    (hshape : (grid = .Square ∧ nColsOdd = nColsEven) ∨
      (grid = .Hexagonal ∧ (nRows % 2 = 0 ∨ nColsOdd = nColsEven)))
    (htp : totalPointsOf grid nColsOdd nColsEven nRows = some tp)
    (hn : n < tp) :
    angIndex nColsEven nColsOdd n < tp := by
  have haligned : tp = prefixPts nColsEven nColsOdd nRows := by
    rcases hshape with ⟨hg, heq⟩ | ⟨hg, hcase⟩
    · subst hg
      rw [heq] at htp ⊢
      simp only [totalPointsOf, Nat.max_self, Option.some.injEq] at htp
      rw [prefixPts_const, ← htp, Nat.mul_comm]
    · subst hg
      simp only [totalPointsOf, Option.some.injEq] at htp
      rcases hcase with heven | heq
      · have h2 : 2 * (nRows / 2) = nRows := by omega
        have hp := prefixPts_pair nColsEven nColsOdd (nRows / 2)
        rw [h2] at hp
        rw [hp]
        rw [if_neg (by omega : ¬ nRows % 2 = 1)] at htp
        rw [Nat.add_comm nColsEven nColsOdd]
        omega
      · rw [heq] at htp ⊢
        rw [prefixPts_const]
        rcases Nat.mod_two_eq_zero_or_one nRows with hm | hm
        · have h2 : 2 * (nRows / 2) = nRows := by omega
          rw [if_neg (by omega : ¬ nRows % 2 = 1)] at htp
          have hx : nRows / 2 * (nColsEven + nColsEven) + 0 =
              2 * (nRows / 2) * nColsEven := by ring
          rw [hx, h2] at htp
          exact htp.symm
        · have h2 : 2 * (nRows / 2) + 1 = nRows := by omega
          rw [if_pos hm] at htp
          have hx : nRows / 2 * (nColsEven + nColsEven) + nColsEven =
              (2 * (nRows / 2) + 1) * nColsEven := by ring
          rw [hx, h2] at htp
          exact htp.symm
  subst haligned
  exact angIndex_lt_of_aligned nColsEven nColsOdd he ho nRows n hn

/-- Witness for C10 on a hexagonal grid with 3/2 columns and 4 rows:
record 7 is written inside the allocated 10 entries. -/
theorem C10_index_bound_witness :
    angIndex 2 3 7 < 10 :=
  C10_index_bound .Hexagonal 3 2 4 10 7 (by decide) (by decide)
    (Or.inr ⟨rfl, Or.inl (by decide)⟩) (by decide) (by decide)

/-!
## Claim theorems: dispatch, header validation, truncation
-/

/-- C1 fails on the code, which is the bug: in `OrientationMap::read`
(src/tsl.hpp lines 242-245) the `default:` branch constructs
`std::runtime_error("unsupported file type ...")` but never throws it
(the `throw` keyword is missing, and the `Ang` case also falls through
into it for lack of a `break`).  Hence for paths whose extension maps to
the recognized-but-unimplemented `Osc`/`Hdf` types, or to no known type,
`read` returns normally with zero points and untouched empty arrays,
instead of failing with the unsupported-file-type error. -/
theorem C1_unsupported_read_returns_normally (contents : List Char) :
    getFileTypeM "scan.osc" = .Osc ∧
    getFileTypeM "scan.hdf" = .Hdf ∧
    getFileTypeM "scan.hdf5" = .Hdf ∧
    getFileTypeM "scan.h5" = .Hdf ∧
    getFileTypeM "scan.xyz" = .Unknown ∧
    readModel "scan.osc" contents = .ok (emptyArrays, 0) ∧
    readModel "scan.hdf" contents = .ok (emptyArrays, 0) ∧
    readModel "scan.hdf5" contents = .ok (emptyArrays, 0) ∧
    readModel "scan.h5" contents = .ok (emptyArrays, 0) ∧
    readModel "scan.xyz" contents = .ok (emptyArrays, 0) :=
  ⟨rfl, rfl, rfl, rfl, rfl, rfl, rfl, rfl, rfl, rfl⟩

/-- C3 fails on the code: `c3Contents` is a header whose final (only)
phase supplies everything except its elastic-constant rows and its
categories, yet header parsing succeeds (the two checks are commented out
at header end, src/tsl.hpp lines 398-399), while the very same phase
followed by a second `Phase` key fails the boundary validation with the
elastic-constants error.  The claim that header end runs the same
validations as a phase boundary is therefore false. -/
theorem C3_final_phase_checks_skipped :
    (readAngHeaderModel c3Contents).isOk = true ∧
    c3State.phaseElasticCount = 0 ∧
    c3State.readPhaseCategories = false ∧
    readAngHeaderModel c3BoundaryContents =
      .error (.missingPhaseField "elastic constants" 1) :=
  ⟨rfl, rfl, rfl, rfl⟩

/-- C3 amended: at header end the parser validates the final phase's
material name, formula, info, symmetry, lattice constants, HKL-family
declaration and family count — any omission being the fatal error naming
that field — but, unlike at a phase boundary, it does not validate the
elastic-constant row count or the categories: the boundary validation is
exactly the header-end validation plus those two checks. -/
theorem C3_final_phase_validation (S : HeaderState) :
    (finalPhaseChecks S = none ↔
      S.readPhaseMaterial = true ∧ S.readPhaseFormula = true ∧
      S.readPhaseInfo = true ∧ S.readPhaseSymmetry = true ∧
      S.readPhaseLattice = true ∧ S.readPhaseHkl = true ∧
      phaseFamilyCheck S = none) ∧
    (phaseBoundaryChecks S = none ↔
      finalPhaseChecks S = none ∧ S.phaseElasticCount = 6 ∧
      S.readPhaseCategories = true) := by
  unfold finalPhaseChecks phaseBoundaryChecks phaseCommonChecks
  cases S.readPhaseMaterial <;> cases S.readPhaseFormula <;>
    cases S.readPhaseInfo <;> cases S.readPhaseSymmetry <;>
    cases S.readPhaseLattice <;> cases S.readPhaseHkl <;>
    cases S.readPhaseCategories <;>
    by_cases he : S.phaseElasticCount = 6 <;> simp_all

/-- C4: the claim is right and the code is wrong.  The family-count
comparison (src/tsl.hpp lines 338 and 401) reads
`targetFamilies < hklFam.size()`, which fires only when *more* families
were supplied than declared — the opposite of its own error message
"missing some hkl families".  `c4Contents` declares `NumberFamilies 2`
but supplies a single `hklFamilies` line, and parsing accepts it; the same
phase with three supplied lines is rejected. -/
theorem C4_family_undercount_accepted :
    (readAngHeaderModel c4Contents).isOk = true ∧
    c4State.targetFamilies = 2 ∧
    lastPhaseFamilies c4State.phases = 1 ∧
    readAngHeaderModel c4OverContents =
      .error (.missingPhaseField "some hkl families" 1) :=
  ⟨rfl, rfl, rfl, rfl⟩

/-- C5: for every file dispatched to the ang reader whose pipeline
produced `n` decoded points into arrays of `totalPoints = iq.length`
entries, `read` fails with the truncated-data error carrying the actual
and expected counts exactly when `n < totalPoints`, and returns normally
otherwise. -/
theorem C5_truncation_check (fileName : String) (contents : List Char)
    (A : AngArrays) (S : HeaderState) (n : Nat)
    (hft : getFileTypeM fileName = .Ang)
    (hread : readAngModel contents = .ok (A, S, n)) :
    (n < A.iq.length →
      readModel fileName contents = .error (.truncatedData n A.iq.length)) ∧
    (A.iq.length ≤ n → readModel fileName contents = .ok (A, n)) := by
  simp only [readModel, hft, hread, Except.map]
  constructor
  · intro h
    rw [if_pos h]
  · intro h
    rw [if_neg (by omega)]

/-- Witness for C5: the 2-by-2 square file with only 3 of its 4 data
lines fails with the truncated-data error reporting 3 of 4. -/
theorem C5_truncation_check_witness :
    readModel "scan.ang" truncContents = .error (.truncatedData 3 4) := by
  have h := (C5_truncation_check "scan.ang" truncContents truncArrays
    truncState 3 rfl rfl).1 (by decide)
  have hlen : truncArrays.iq.length = 4 := rfl
  rw [hlen] at h
  exact h

theorem missingChecks_first_unseen (S : HeaderState) (i : Fin 14)
    (hlt : ∀ j : Fin 14, j < i → mandatoryFlag j S = true)
    (hi : mandatoryFlag i S = false) :
    missingChecks S =
      some (.missingHeaderValue (mandatoryFieldNames.getD i.val "")) := by
  fin_cases i
  · simp [mandatoryFlag] at hi
    simp [missingChecks, mandatoryFieldNames, hi]
  · have hj0 : S.readPixPerUm = true := by
      simpa [mandatoryFlag] using hlt 0 (by decide)
    simp [mandatoryFlag] at hi
    simp [missingChecks, mandatoryFieldNames, hj0, hi]
  · have hj0 : S.readPixPerUm = true := by
      simpa [mandatoryFlag] using hlt 0 (by decide)
    have hj1 : S.readXStar = true := by
      simpa [mandatoryFlag] using hlt 1 (by decide)
    simp [mandatoryFlag] at hi
    simp [missingChecks, mandatoryFieldNames, hj0, hj1, hi]
  · have hj0 : S.readPixPerUm = true := by
      simpa [mandatoryFlag] using hlt 0 (by decide)
    have hj1 : S.readXStar = true := by
      simpa [mandatoryFlag] using hlt 1 (by decide)
    have hj2 : S.readYStar = true := by
      simpa [mandatoryFlag] using hlt 2 (by decide)
    simp [mandatoryFlag] at hi
    simp [missingChecks, mandatoryFieldNames, hj0, hj1, hj2, hi]
  · have hj0 : S.readPixPerUm = true := by
      simpa [mandatoryFlag] using hlt 0 (by decide)
    have hj1 : S.readXStar = true := by
      simpa [mandatoryFlag] using hlt 1 (by decide)
    have hj2 : S.readYStar = true := by
      simpa [mandatoryFlag] using hlt 2 (by decide)
    have hj3 : S.readZStar = true := by
      simpa [mandatoryFlag] using hlt 3 (by decide)
    simp [mandatoryFlag] at hi
    simp [missingChecks, mandatoryFieldNames, hj0, hj1, hj2, hj3, hi]
  · have hj0 : S.readPixPerUm = true := by
      simpa [mandatoryFlag] using hlt 0 (by decide)
    have hj1 : S.readXStar = true := by
      simpa [mandatoryFlag] using hlt 1 (by decide)
    have hj2 : S.readYStar = true := by
      simpa [mandatoryFlag] using hlt 2 (by decide)
    have hj3 : S.readZStar = true := by
      simpa [mandatoryFlag] using hlt 3 (by decide)
    have hj4 : S.readWorkingDistance = true := by
      simpa [mandatoryFlag] using hlt 4 (by decide)
    simp [mandatoryFlag] at hi
    simp [missingChecks, mandatoryFieldNames, hj0, hj1, hj2, hj3, hj4, hi]
  · have hj0 : S.readPixPerUm = true := by
      simpa [mandatoryFlag] using hlt 0 (by decide)
    have hj1 : S.readXStar = true := by
      simpa [mandatoryFlag] using hlt 1 (by decide)
    have hj2 : S.readYStar = true := by
      simpa [mandatoryFlag] using hlt 2 (by decide)
    have hj3 : S.readZStar = true := by
      simpa [mandatoryFlag] using hlt 3 (by decide)
    have hj4 : S.readWorkingDistance = true := by
      simpa [mandatoryFlag] using hlt 4 (by decide)
    have hj5 : S.readGridType = true := by
      simpa [mandatoryFlag] using hlt 5 (by decide)
    simp [mandatoryFlag] at hi
    simp [missingChecks, mandatoryFieldNames, hj0, hj1, hj2, hj3, hj4, hj5, hi]
  · have hj0 : S.readPixPerUm = true := by
      simpa [mandatoryFlag] using hlt 0 (by decide)
    have hj1 : S.readXStar = true := by
      simpa [mandatoryFlag] using hlt 1 (by decide)
    have hj2 : S.readYStar = true := by
      simpa [mandatoryFlag] using hlt 2 (by decide)
    have hj3 : S.readZStar = true := by
      simpa [mandatoryFlag] using hlt 3 (by decide)
    have hj4 : S.readWorkingDistance = true := by
      simpa [mandatoryFlag] using hlt 4 (by decide)
    have hj5 : S.readGridType = true := by
      simpa [mandatoryFlag] using hlt 5 (by decide)
    have hj6 : S.readXStep = true := by
      simpa [mandatoryFlag] using hlt 6 (by decide)
    simp [mandatoryFlag] at hi
    simp [missingChecks, mandatoryFieldNames, hj0, hj1, hj2, hj3, hj4, hj5, hj6, hi]
  · have hj0 : S.readPixPerUm = true := by
      simpa [mandatoryFlag] using hlt 0 (by decide)
    have hj1 : S.readXStar = true := by
      simpa [mandatoryFlag] using hlt 1 (by decide)
    have hj2 : S.readYStar = true := by
      simpa [mandatoryFlag] using hlt 2 (by decide)
    have hj3 : S.readZStar = true := by
      simpa [mandatoryFlag] using hlt 3 (by decide)
    have hj4 : S.readWorkingDistance = true := by
      simpa [mandatoryFlag] using hlt 4 (by decide)
    have hj5 : S.readGridType = true := by
      simpa [mandatoryFlag] using hlt 5 (by decide)
    have hj6 : S.readXStep = true := by
      simpa [mandatoryFlag] using hlt 6 (by decide)
    have hj7 : S.readYStep = true := by
      simpa [mandatoryFlag] using hlt 7 (by decide)
    simp [mandatoryFlag] at hi
    simp [missingChecks, mandatoryFieldNames, hj0, hj1, hj2, hj3, hj4, hj5, hj6, hj7, hi]
  · have hj0 : S.readPixPerUm = true := by
      simpa [mandatoryFlag] using hlt 0 (by decide)
    have hj1 : S.readXStar = true := by
      simpa [mandatoryFlag] using hlt 1 (by decide)
    have hj2 : S.readYStar = true := by
      simpa [mandatoryFlag] using hlt 2 (by decide)
    have hj3 : S.readZStar = true := by
      simpa [mandatoryFlag] using hlt 3 (by decide)
    have hj4 : S.readWorkingDistance = true := by
      simpa [mandatoryFlag] using hlt 4 (by decide)
    have hj5 : S.readGridType = true := by
      simpa [mandatoryFlag] using hlt 5 (by decide)
    have hj6 : S.readXStep = true := by
      simpa [mandatoryFlag] using hlt 6 (by decide)
    have hj7 : S.readYStep = true := by
      simpa [mandatoryFlag] using hlt 7 (by decide)
    have hj8 : S.readColsOdd = true := by
      simpa [mandatoryFlag] using hlt 8 (by decide)
    simp [mandatoryFlag] at hi
    simp [missingChecks, mandatoryFieldNames, hj0, hj1, hj2, hj3, hj4, hj5, hj6, hj7, hj8, hi]
  · have hj0 : S.readPixPerUm = true := by
      simpa [mandatoryFlag] using hlt 0 (by decide)
    have hj1 : S.readXStar = true := by
      simpa [mandatoryFlag] using hlt 1 (by decide)
    have hj2 : S.readYStar = true := by
      simpa [mandatoryFlag] using hlt 2 (by decide)
    have hj3 : S.readZStar = true := by
      simpa [mandatoryFlag] using hlt 3 (by decide)
    have hj4 : S.readWorkingDistance = true := by
      simpa [mandatoryFlag] using hlt 4 (by decide)
    have hj5 : S.readGridType = true := by
      simpa [mandatoryFlag] using hlt 5 (by decide)
    have hj6 : S.readXStep = true := by
      simpa [mandatoryFlag] using hlt 6 (by decide)
    have hj7 : S.readYStep = true := by
      simpa [mandatoryFlag] using hlt 7 (by decide)
    have hj8 : S.readColsOdd = true := by
      simpa [mandatoryFlag] using hlt 8 (by decide)
    have hj9 : S.readColsEven = true := by
      simpa [mandatoryFlag] using hlt 9 (by decide)
    simp [mandatoryFlag] at hi
    simp [missingChecks, mandatoryFieldNames, hj0, hj1, hj2, hj3, hj4, hj5, hj6, hj7, hj8, hj9, hi]
  · have hj0 : S.readPixPerUm = true := by
      simpa [mandatoryFlag] using hlt 0 (by decide)
    have hj1 : S.readXStar = true := by
      simpa [mandatoryFlag] using hlt 1 (by decide)
    have hj2 : S.readYStar = true := by
      simpa [mandatoryFlag] using hlt 2 (by decide)
    have hj3 : S.readZStar = true := by
      simpa [mandatoryFlag] using hlt 3 (by decide)
    have hj4 : S.readWorkingDistance = true := by
      simpa [mandatoryFlag] using hlt 4 (by decide)
    have hj5 : S.readGridType = true := by
      simpa [mandatoryFlag] using hlt 5 (by decide)
    have hj6 : S.readXStep = true := by
      simpa [mandatoryFlag] using hlt 6 (by decide)
    have hj7 : S.readYStep = true := by
      simpa [mandatoryFlag] using hlt 7 (by decide)
    have hj8 : S.readColsOdd = true := by
      simpa [mandatoryFlag] using hlt 8 (by decide)
    have hj9 : S.readColsEven = true := by
      simpa [mandatoryFlag] using hlt 9 (by decide)
    have hj10 : S.readRows = true := by
      simpa [mandatoryFlag] using hlt 10 (by decide)
    simp [mandatoryFlag] at hi
    simp [missingChecks, mandatoryFieldNames, hj0, hj1, hj2, hj3, hj4, hj5, hj6, hj7, hj8, hj9, hj10, hi]
  · have hj0 : S.readPixPerUm = true := by
      simpa [mandatoryFlag] using hlt 0 (by decide)
    have hj1 : S.readXStar = true := by
      simpa [mandatoryFlag] using hlt 1 (by decide)
    have hj2 : S.readYStar = true := by
      simpa [mandatoryFlag] using hlt 2 (by decide)
    have hj3 : S.readZStar = true := by
      simpa [mandatoryFlag] using hlt 3 (by decide)
    have hj4 : S.readWorkingDistance = true := by
      simpa [mandatoryFlag] using hlt 4 (by decide)
    have hj5 : S.readGridType = true := by
      simpa [mandatoryFlag] using hlt 5 (by decide)
    have hj6 : S.readXStep = true := by
      simpa [mandatoryFlag] using hlt 6 (by decide)
    have hj7 : S.readYStep = true := by
      simpa [mandatoryFlag] using hlt 7 (by decide)
    have hj8 : S.readColsOdd = true := by
      simpa [mandatoryFlag] using hlt 8 (by decide)
    have hj9 : S.readColsEven = true := by
      simpa [mandatoryFlag] using hlt 9 (by decide)
    have hj10 : S.readRows = true := by
      simpa [mandatoryFlag] using hlt 10 (by decide)
    have hj11 : S.readOperatorName = true := by
      simpa [mandatoryFlag] using hlt 11 (by decide)
    simp [mandatoryFlag] at hi
    simp [missingChecks, mandatoryFieldNames, hj0, hj1, hj2, hj3, hj4, hj5, hj6, hj7, hj8, hj9, hj10, hj11, hi]
  · have hj0 : S.readPixPerUm = true := by
      simpa [mandatoryFlag] using hlt 0 (by decide)
    have hj1 : S.readXStar = true := by
      simpa [mandatoryFlag] using hlt 1 (by decide)
    have hj2 : S.readYStar = true := by
      simpa [mandatoryFlag] using hlt 2 (by decide)
    have hj3 : S.readZStar = true := by
      simpa [mandatoryFlag] using hlt 3 (by decide)
    have hj4 : S.readWorkingDistance = true := by
      simpa [mandatoryFlag] using hlt 4 (by decide)
    have hj5 : S.readGridType = true := by
      simpa [mandatoryFlag] using hlt 5 (by decide)
    have hj6 : S.readXStep = true := by
      simpa [mandatoryFlag] using hlt 6 (by decide)
    have hj7 : S.readYStep = true := by
      simpa [mandatoryFlag] using hlt 7 (by decide)
    have hj8 : S.readColsOdd = true := by
      simpa [mandatoryFlag] using hlt 8 (by decide)
    have hj9 : S.readColsEven = true := by
      simpa [mandatoryFlag] using hlt 9 (by decide)
    have hj10 : S.readRows = true := by
      simpa [mandatoryFlag] using hlt 10 (by decide)
    have hj11 : S.readOperatorName = true := by
      simpa [mandatoryFlag] using hlt 11 (by decide)
    have hj12 : S.readSampleId = true := by
      simpa [mandatoryFlag] using hlt 12 (by decide)
    simp [mandatoryFlag] at hi
    simp [missingChecks, mandatoryFieldNames, hj0, hj1, hj2, hj3, hj4, hj5, hj6, hj7, hj8, hj9, hj10, hj11, hj12, hi]

theorem missingChecks_all_seen (S : HeaderState)
    (h : ∀ j : Fin 14, mandatoryFlag j S = true) : missingChecks S = none := by
  have hj0 : S.readPixPerUm = true := by
    simpa [mandatoryFlag] using h 0
  have hj1 : S.readXStar = true := by
    simpa [mandatoryFlag] using h 1
  have hj2 : S.readYStar = true := by
    simpa [mandatoryFlag] using h 2
  have hj3 : S.readZStar = true := by
    simpa [mandatoryFlag] using h 3
  have hj4 : S.readWorkingDistance = true := by
    simpa [mandatoryFlag] using h 4
  have hj5 : S.readGridType = true := by
    simpa [mandatoryFlag] using h 5
  have hj6 : S.readXStep = true := by
    simpa [mandatoryFlag] using h 6
  have hj7 : S.readYStep = true := by
    simpa [mandatoryFlag] using h 7
  have hj8 : S.readColsOdd = true := by
    simpa [mandatoryFlag] using h 8
  have hj9 : S.readColsEven = true := by
    simpa [mandatoryFlag] using h 9
  have hj10 : S.readRows = true := by
    simpa [mandatoryFlag] using h 10
  have hj11 : S.readOperatorName = true := by
    simpa [mandatoryFlag] using h 11
  have hj12 : S.readSampleId = true := by
    simpa [mandatoryFlag] using h 12
  have hj13 : S.readScanId = true := by
    simpa [mandatoryFlag] using h 13
  simp [missingChecks, hj0, hj1, hj2, hj3, hj4, hj5, hj6, hj7, hj8, hj9, hj10, hj11, hj12, hj13]

theorem readAngHeaderModel_missing (contents : List Char) (S : HeaderState)
    (rest : List Char) (ok : Bool) (i : Fin 14)
    (hgo : readAngHeaderGo (contents.length + 1) initHeaderState contents =
      .ok (S, rest, ok))
    (hfinal : finalPhaseChecks S = none)
    (hlt : ∀ j : Fin 14, j < i → mandatoryFlag j S = true)
    (hi : mandatoryFlag i S = false) :
    readAngHeaderModel contents =
      .error (.missingHeaderValue (mandatoryFieldNames.getD i.val "")) := by
  unfold readAngHeaderModel
  rw [hgo]
  dsimp only
  rw [hfinal]
  dsimp only
  rw [missingChecks_first_unseen S i hlt hi]

/-- C6: for every header missing one of the 14 mandatory top-level keys,
parsing fails with the missing-header-value error naming exactly that key
(the message text carries the keyword without its trailing colon), and no
other field is affected.  In full generality over the parser state: when
the i-th mandatory key is the first unseen one, the mandatory-key
validation yields exactly the error naming key i, and it yields no error
when every key was seen; consequently any file whose header loop and
final-phase validation complete with key i the first unseen key fails
with exactly that error.  Concretely, erasing exactly the i-th mandatory
line from a complete header produces exactly that error for each of the
14 keys, while the complete header parses successfully. -/
theorem C6_missing_header_field :
    (∀ (S : HeaderState) (i : Fin 14),
        (∀ j : Fin 14, j < i → mandatoryFlag j S = true) →
        mandatoryFlag i S = false →
        missingChecks S =
          some (.missingHeaderValue (mandatoryFieldNames.getD i.val ""))) ∧
    (∀ S : HeaderState,
        (∀ j : Fin 14, mandatoryFlag j S = true) → missingChecks S = none) ∧
    (∀ (contents : List Char) (S : HeaderState) (rest : List Char) (ok : Bool)
        (i : Fin 14),
        readAngHeaderGo (contents.length + 1) initHeaderState contents =
          .ok (S, rest, ok) →
        finalPhaseChecks S = none →
        (∀ j : Fin 14, j < i → mandatoryFlag j S = true) →
        mandatoryFlag i S = false →
        readAngHeaderModel contents =
          .error (.missingHeaderValue (mandatoryFieldNames.getD i.val ""))) ∧
    (∀ i : Fin 14,
        readAngHeaderModel (headerOmitting i.val) =
          .error (.missingHeaderValue (mandatoryFieldNames.getD i.val ""))) ∧
    (readAngHeaderModel demoContents).isOk = true := by
  refine ⟨missingChecks_first_unseen, missingChecks_all_seen,
    fun contents S rest ok i hgo hfinal hlt hi =>
      readAngHeaderModel_missing contents S rest ok i hgo hfinal hlt hi,
    ?_, rfl⟩
  intro i
  fin_cases i <;> exact rfl

/-- Witness for C6 at a concrete state that has seen the first five
mandatory keys and not the grid type: the validation reports exactly the
grid-type key. -/
theorem C6_missing_header_field_witness :
    missingChecks c6State =
      some (.missingHeaderValue (mandatoryFieldNames.getD 5 "")) ∧
    mandatoryFieldNames.getD 5 "" = "GRID" :=
  ⟨C6_missing_header_field.1 c6State 5 (by decide) (by decide), by decide⟩

/-!
## Claim C2: decoder refinement equivalence
-/

theorem takeWhile_append_all {α : Type} (p : α → Bool) (f r : List α)
    (hf : ∀ a ∈ f, p a = true) :
    (f ++ r).takeWhile p = f ++ r.takeWhile p := by
  induction f with
  | nil => simp
  | cons a f ih =>
    have ha : p a = true := hf a (by simp)
    simp only [List.cons_append, List.takeWhile_cons_of_pos ha]
    rw [ih (fun b hb => hf b (by simp [hb]))]

theorem dropWhile_append_all {α : Type} (p : α → Bool) (f r : List α)
    (hf : ∀ a ∈ f, p a = true) :
    (f ++ r).dropWhile p = r.dropWhile p := by
  induction f with
  | nil => simp
  | cons a f ih =>
    have ha : p a = true := hf a (by simp)
    simp only [List.cons_append, List.dropWhile_cons_of_pos ha]
    exact ih (fun b hb => hf b (by simp [hb]))

theorem digit_char_props (c : Char) (h : isDigitC c = true) :
    isSpaceC c = false ∧ c ≠ '.' ∧ c ≠ '+' ∧ c ≠ '-' ∧ c ≠ 'e' ∧ c ≠ 'E' ∧
      c ≠ '\n' ∧ c ≠ ' ' := by
  simp only [isDigitC, Bool.or_eq_true, decide_eq_true_eq] at h
  rcases h with
    ((((((((rfl | rfl) | rfl) | rfl) | rfl) | rfl) | rfl) | rfl) | rfl) | rfl <;>
    exact ⟨rfl, by decide, by decide, by decide, by decide, by decide,
      by decide, by decide⟩

theorem stop_rest_facts (r : List Char)
    (hr : r = [] ∨ (∃ t, r = ' ' :: t) ∨ (∃ t, r = '\n' :: t)) :
    takeDigits r = [] ∧ dropDigits r = r := by
  rcases hr with rfl | ⟨t, rfl⟩ | ⟨t, rfl⟩ <;>
    simp [takeDigits, dropDigits, List.takeWhile_cons, List.dropWhile_cons,
      show isDigitC ' ' = false from rfl, show isDigitC '\n' = false from rfl]

theorem expTail_stop (r : List Char)
    (hr : r = [] ∨ (∃ t, r = ' ' :: t) ∨ (∃ t, r = '\n' :: t)) :
    expTail r = ([], r) := by
  rcases hr with rfl | ⟨t, rfl⟩ | ⟨t, rfl⟩ <;> simp [expTail]

theorem takeDigits_all (m : List Char) : ∀ a ∈ takeDigits m, isDigitC a = true :=
  fun _ ha => List.mem_takeWhile_imp ha

theorem takeDigits_dropDigits (m : List Char) : takeDigits m ++ dropDigits m = m :=
  List.takeWhile_append_dropWhile _ _

theorem dropDigits_head (m : List Char) (c : Char) (r : List Char)
    (h : dropDigits m = c :: r) : isDigitC c = false := by
  induction m with
  | nil => simp [dropDigits] at h
  | cons a m ih =>
    by_cases ha : isDigitC a = true
    · exact ih (by simpa [dropDigits, List.dropWhile_cons, ha] using h)
    · unfold dropDigits at h
      rw [List.dropWhile_cons] at h
      simp only [ha] at h
      simp only [Bool.false_eq_true, if_false, List.cons.injEq] at h
      rw [← h.1]
      simpa using ha

theorem takeDigits_append_flat (d rest : List Char)
    (hd : ∀ a ∈ d, isDigitC a = true) (hrest : takeDigits rest = []) :
    takeDigits (d ++ rest) = d := by
  unfold takeDigits at *
  rw [takeWhile_append_all _ _ _ hd, hrest, List.append_nil]

theorem dropDigits_append_flat (d rest : List Char)
    (hd : ∀ a ∈ d, isDigitC a = true) (hrest : dropDigits rest = rest) :
    dropDigits (d ++ rest) = rest := by
  unfold dropDigits at *
  rw [dropWhile_append_all _ _ _ hd, hrest]

theorem digits_stop_cons (c : Char) (r : List Char) (hc : isDigitC c = false) :
    takeDigits (c :: r) = [] ∧ dropDigits (c :: r) = c :: r := by
  unfold takeDigits dropDigits
  rw [List.takeWhile_cons, List.dropWhile_cons]
  simp [hc]

theorem expShape_consume (x r : List Char) (hx : expShape x = true)
    (hr : r = [] ∨ (∃ t, r = ' ' :: t) ∨ (∃ t, r = '\n' :: t)) :
    expTail (x ++ r) = (x, r) := by
  rcases x with _ | ⟨c, rest⟩
  · simpa using expTail_stop r hr
  · unfold expShape at hx
    rcases rest with _ | ⟨c2, r2⟩
    · simp at hx
    · simp only [Bool.and_eq_true, Bool.or_eq_true, decide_eq_true_eq] at hx
      obtain ⟨hce, hrest⟩ := hx
      unfold expTail
      simp only [List.cons_append]
      rw [if_pos (by rcases hce with rfl | rfl <;> simp)]
      by_cases hsgn : c2 = '+' ∨ c2 = '-'
      · rw [if_pos hsgn] at hrest
        rw [if_pos (show (decide (c2 = '+') || decide (c2 = '-')) = true by
          rcases hsgn with h | h <;> simp [h])]
        simp only [Bool.and_eq_true, Bool.not_eq_true'] at hrest
        obtain ⟨hne, hdig⟩ := hrest
        have ht := takeDigits_append_flat r2 r (List.all_eq_true.mp hdig)
          (stop_rest_facts r hr).1
        have hdp := dropDigits_append_flat r2 r (List.all_eq_true.mp hdig)
          (stop_rest_facts r hr).2
        rw [ht, hdp, if_neg (by simp [hne])]
      · rw [if_neg hsgn] at hrest
        rw [if_neg (show ¬ (decide (c2 = '+') || decide (c2 = '-')) = true by
          simpa using hsgn)]
        have hall := List.all_eq_true.mp hrest
        have ht : takeDigits (c2 :: (r2 ++ r)) = c2 :: r2 := by
          rw [show c2 :: (r2 ++ r) = (c2 :: r2) ++ r from rfl]
          exact takeDigits_append_flat _ r hall (stop_rest_facts r hr).1
        have hdp : dropDigits (c2 :: (r2 ++ r)) = r := by
          rw [show c2 :: (r2 ++ r) = (c2 :: r2) ++ r from rfl]
          exact dropDigits_append_flat _ r hall (stop_rest_facts r hr).2
        rw [ht, hdp, if_neg (by simp)]

theorem floatBody_mantissa (m r : List Char) (hm : floatBody m = true)
    (hr : r = [] ∨ (∃ t, r = ' ' :: t) ∨ (∃ t, r = '\n' :: t)) :
    ∃ mant x, m = mant ++ x ∧ expShape x = true ∧
      mantTok (m ++ r) = some (mant, x ++ r) := by
  have hm_eq : m = takeDigits m ++ dropDigits m := (takeDigits_dropDigits m).symm
  unfold floatBody at hm
  rcases hd : dropDigits m with _ | ⟨c, r2⟩
  · rw [hd, List.append_nil] at hm_eq
    simp only [hd] at hm
    have hmd : ∀ a ∈ m, isDigitC a = true := by
      intro a ha
      apply takeDigits_all m
      rw [← hm_eq]
      exact ha
    have hmne : m ≠ [] := by
      intro h
      rw [h] at hm
      simp [takeDigits] at hm
    refine ⟨m, [], by simp, rfl, ?_⟩
    unfold mantTok
    have htd : takeDigits (m ++ r) = m :=
      takeDigits_append_flat m r hmd (stop_rest_facts r hr).1
    have hdd : dropDigits (m ++ r) = r :=
      dropDigits_append_flat m r hmd (stop_rest_facts r hr).2
    simp only [htd, hdd]
    rcases hr with rfl | ⟨t, rfl⟩ | ⟨t, rfl⟩
    · dsimp only
      simp [List.isEmpty_iff, hmne]
    · dsimp only
      rw [if_neg (by decide : ¬ (' ' : Char) = '.')]
      simp [List.isEmpty_iff, hmne]
    · dsimp only
      rw [if_neg (by decide : ¬ ('\n' : Char) = '.')]
      simp [List.isEmpty_iff, hmne]
  · have hc : isDigitC c = false := dropDigits_head m c r2 hd
    rw [hd] at hm_eq
    simp only [hd] at hm
    have hd1 : ∀ a ∈ takeDigits m, isDigitC a = true := takeDigits_all m
    by_cases hdot : c = '.'
    · subst hdot
      rw [if_pos rfl] at hm
      simp only [Bool.and_eq_true] at hm
      obtain ⟨hne, hexp⟩ := hm
      have hr2_eq : r2 = takeDigits r2 ++ dropDigits r2 :=
        (takeDigits_dropDigits r2).symm
      have hd2 : ∀ a ∈ takeDigits r2, isDigitC a = true := takeDigits_all r2
      have hstop3 : takeDigits (dropDigits r2 ++ r) = [] ∧
          dropDigits (dropDigits r2 ++ r) = dropDigits r2 ++ r := by
        rcases h3 : dropDigits r2 with _ | ⟨c3, r4⟩
        · simpa using stop_rest_facts r hr
        · have hc3 : isDigitC c3 = false := dropDigits_head r2 c3 r4 h3
          exact digits_stop_cons c3 (r4 ++ r) hc3
      refine ⟨takeDigits m ++ '.' :: takeDigits r2, dropDigits r2, ?_, hexp, ?_⟩
      · conv_lhs => rw [hm_eq]
        conv_lhs => rw [hr2_eq]
        simp
      · have hgoal_eq : m ++ r = takeDigits m ++ ('.' :: (r2 ++ r)) := by
          conv_lhs => rw [hm_eq]
          simp
        rw [hgoal_eq]
        unfold mantTok
        have htd : takeDigits (takeDigits m ++ ('.' :: (r2 ++ r))) =
            takeDigits m :=
          takeDigits_append_flat _ _ hd1
            (digits_stop_cons '.' (r2 ++ r) (by decide)).1
        have hdd : dropDigits (takeDigits m ++ ('.' :: (r2 ++ r))) =
            '.' :: (r2 ++ r) :=
          dropDigits_append_flat _ _ hd1
            (digits_stop_cons '.' (r2 ++ r) (by decide)).2
        simp only [htd, hdd]
        try dsimp only
        rw [if_pos trivial]
        have htd2 : takeDigits (r2 ++ r) = takeDigits r2 := by
          conv_lhs => rw [hr2_eq]
          rw [List.append_assoc]
          exact takeDigits_append_flat _ _ hd2 hstop3.1
        have hdd2 : dropDigits (r2 ++ r) = dropDigits r2 ++ r := by
          conv_lhs => rw [hr2_eq]
          rw [List.append_assoc]
          exact dropDigits_append_flat _ _ hd2 hstop3.2
        simp only [htd2, hdd2]
        rw [if_neg (by
          rcases (Bool.or_eq_true _ _).mp hne with h | h <;>
            simp only [Bool.not_eq_true'] at h <;> simp [h])]
    · rw [if_neg hdot] at hm
      simp only [Bool.and_eq_true] at hm
      obtain ⟨hne, hexp⟩ := hm
      refine ⟨takeDigits m, c :: r2, hm_eq, hexp, ?_⟩
      have hgoal_eq : m ++ r = takeDigits m ++ (c :: (r2 ++ r)) := by
        conv_lhs => rw [hm_eq]
        simp
      rw [hgoal_eq]
      unfold mantTok
      have htd : takeDigits (takeDigits m ++ (c :: (r2 ++ r))) = takeDigits m :=
        takeDigits_append_flat _ _ hd1 (digits_stop_cons c (r2 ++ r) hc).1
      have hdd : dropDigits (takeDigits m ++ (c :: (r2 ++ r))) =
          c :: (r2 ++ r) :=
        dropDigits_append_flat _ _ hd1 (digits_stop_cons c (r2 ++ r) hc).2
      simp only [htd, hdd]
      try dsimp only
      rw [if_neg hdot]
      rw [if_neg (by simp only [Bool.not_eq_true'] at hne; simp [hne])]
      simp

theorem floatField_consume (f r : List Char) (hf : floatField f = true)
    (hr : r = [] ∨ (∃ t, r = ' ' :: t) ∨ (∃ t, r = '\n' :: t)) :
    floatTokOf (f ++ r) = some (f, r) := by
  rcases f with _ | ⟨c, f'⟩
  · simp [floatField] at hf
  · unfold floatField at hf
    dsimp only at hf
    unfold floatTokOf
    simp only [List.cons_append]
    by_cases hsgn : c = '+' ∨ c = '-'
    · have hsgnb : (decide (c = '+') || decide (c = '-')) = true := by
        rcases hsgn with h | h <;> simp [h]
      rw [if_pos hsgnb] at hf
      rw [if_pos hsgnb]
      obtain ⟨mant, x, hmx, hxs, hmt⟩ := floatBody_mantissa f' r hf hr
      rw [hmt]
      try dsimp only
      rw [expShape_consume x r hxs hr]
      try dsimp only
      rw [← hmx]
    · have hsgnb : ¬ (decide (c = '+') || decide (c = '-')) = true := by
        simpa using hsgn
      rw [if_neg hsgnb] at hf
      rw [if_neg hsgnb]
      obtain ⟨mant, x, hmx, hxs, hmt⟩ := floatBody_mantissa (c :: f') r hf hr
      rw [List.cons_append] at hmt
      rw [hmt]
      try dsimp only
      rw [expShape_consume x r hxs hr]
      try dsimp only
      rw [← hmx]

theorem ulongField_consume (f r : List Char) (hf : ulongField f = true)
    (hr : r = [] ∨ (∃ t, r = ' ' :: t) ∨ (∃ t, r = '\n' :: t)) :
    ulongTokOf (f ++ r) = some (f, r) := by
  rcases f with _ | ⟨c, f'⟩
  · simp [ulongField] at hf
  · unfold ulongField at hf
    dsimp only at hf
    unfold ulongTokOf
    simp only [List.cons_append]
    by_cases hsgn : c = '+' ∨ c = '-'
    · have hsgnb : (decide (c = '+') || decide (c = '-')) = true := by
        rcases hsgn with h | h <;> simp [h]
      rw [if_pos hsgnb] at hf
      rw [if_pos hsgnb]
      simp only [Bool.and_eq_true, Bool.not_eq_true'] at hf
      obtain ⟨hne, hdig⟩ := hf
      have ht := takeDigits_append_flat f' r (List.all_eq_true.mp hdig)
        (stop_rest_facts r hr).1
      have hdp := dropDigits_append_flat f' r (List.all_eq_true.mp hdig)
        (stop_rest_facts r hr).2
      rw [ht, hdp, if_neg (by simp [hne])]
    · have hsgnb : ¬ (decide (c = '+') || decide (c = '-')) = true := by
        simpa using hsgn
      rw [if_neg hsgnb] at hf
      rw [if_neg hsgnb]
      have hall := List.all_eq_true.mp hf
      have ht : takeDigits (c :: (f' ++ r)) = c :: f' := by
        rw [show c :: (f' ++ r) = (c :: f') ++ r from rfl]
        exact takeDigits_append_flat _ r hall (stop_rest_facts r hr).1
      have hdp : dropDigits (c :: (f' ++ r)) = r := by
        rw [show c :: (f' ++ r) = (c :: f') ++ r from rfl]
        exact dropDigits_append_flat _ r hall (stop_rest_facts r hr).2
      rw [ht, hdp, if_neg (by simp)]

theorem parseFloatTok_field (ws f r : List Char)
    (hws : ∀ a ∈ ws, isSpaceC a = true) (hne : f ≠ [])
    (hns : ∀ a ∈ f, isSpaceC a = false) (hf : floatField f = true)
    (hr : r = [] ∨ (∃ t, r = ' ' :: t) ∨ (∃ t, r = '\n' :: t)) :
    parseFloatTok (ws ++ (f ++ r)) = (f, r) := by
  have hdrop : (ws ++ (f ++ r)).dropWhile isSpaceC = f ++ r := by
    rw [dropWhile_append_all _ _ _ hws]
    obtain ⟨a, f', rfl⟩ := List.exists_cons_of_ne_nil hne
    simp [List.dropWhile_cons, hns a (by simp)]
  unfold parseFloatTok
  rw [hdrop, floatField_consume f r hf hr]

theorem parseUlongTok_field (ws f r : List Char)
    (hws : ∀ a ∈ ws, isSpaceC a = true) (hne : f ≠ [])
    (hns : ∀ a ∈ f, isSpaceC a = false) (hf : ulongField f = true)
    (hr : r = [] ∨ (∃ t, r = ' ' :: t) ∨ (∃ t, r = '\n' :: t)) :
    parseUlongTok (ws ++ (f ++ r)) = (f, r) := by
  have hdrop : (ws ++ (f ++ r)).dropWhile isSpaceC = f ++ r := by
    rw [dropWhile_append_all _ _ _ hws]
    obtain ⟨a, f', rfl⟩ := List.exists_cons_of_ne_nil hne
    simp [List.dropWhile_cons, hns a (by simp)]
  unfold parseUlongTok
  rw [hdrop, ulongField_consume f r hf hr]

theorem joinFields_cons₂ (f g : List Char) (L : List (List Char)) :
    joinFields (f :: g :: L) = f ++ ' ' :: joinFields (g :: L) := rfl

theorem append_shift (f jf tail : List Char) :
    (f ++ ' ' :: jf) ++ tail = f ++ (' ' :: (jf ++ tail)) := by
  simp [List.append_assoc]

theorem parseFloat_first (ws f g : List Char) (L : List (List Char))
    (tail : List Char) (hws : ∀ a ∈ ws, isSpaceC a = true)
    (hne : f ≠ []) (hns : ∀ a ∈ f, isSpaceC a = false)
    (hf : floatField f = true) :
    parseFloatTok (ws ++ (joinFields (f :: g :: L) ++ tail)) =
      (f, ' ' :: (joinFields (g :: L) ++ tail)) := by
  rw [joinFields_cons₂, append_shift]
  exact parseFloatTok_field ws f _ hws hne hns hf (Or.inr (Or.inl ⟨_, rfl⟩))

theorem parseFloat_cons_sp (f g : List Char) (L : List (List Char))
    (tail : List Char) (hne : f ≠ []) (hns : ∀ a ∈ f, isSpaceC a = false)
    (hf : floatField f = true) :
    parseFloatTok (' ' :: (joinFields (f :: g :: L) ++ tail)) =
      (f, ' ' :: (joinFields (g :: L) ++ tail)) := by
  show parseFloatTok ([' '] ++ (joinFields (f :: g :: L) ++ tail)) = _
  exact parseFloat_first [' '] f g L tail (by simp [isSpaceC]) hne hns hf

theorem parseFloat_last_sp (f tail : List Char)
    (hne : f ≠ []) (hns : ∀ a ∈ f, isSpaceC a = false)
    (hf : floatField f = true)
    (htail : tail = [] ∨ ∃ t, tail = '\n' :: t) :
    parseFloatTok (' ' :: (joinFields [f] ++ tail)) = (f, tail) := by
  show parseFloatTok ([' '] ++ (joinFields [f] ++ tail)) = _
  have hj : joinFields [f] = f := rfl
  rw [hj]
  refine parseFloatTok_field [' '] f tail (by simp [isSpaceC]) hne hns hf ?_
  rcases htail with rfl | ⟨t, rfl⟩
  · exact Or.inl rfl
  · exact Or.inr (Or.inr ⟨t, rfl⟩)

theorem parseUlong_cons_sp (f g : List Char) (L : List (List Char))
    (tail : List Char) (hne : f ≠ []) (hns : ∀ a ∈ f, isSpaceC a = false)
    (hf : ulongField f = true) :
    parseUlongTok (' ' :: (joinFields (f :: g :: L) ++ tail)) =
      (f, ' ' :: (joinFields (g :: L) ++ tail)) := by
  show parseUlongTok ([' '] ++ (joinFields (f :: g :: L) ++ tail)) = _
  rw [joinFields_cons₂, append_shift]
  exact parseUlongTok_field [' '] f _ (by simp [isSpaceC]) hne hns hf
    (Or.inr (Or.inl ⟨_, rfl⟩))

theorem parseUlong_last_sp (f tail : List Char)
    (hne : f ≠ []) (hns : ∀ a ∈ f, isSpaceC a = false)
    (hf : ulongField f = true)
    (htail : tail = [] ∨ ∃ t, tail = '\n' :: t) :
    parseUlongTok (' ' :: (joinFields [f] ++ tail)) = (f, tail) := by
  show parseUlongTok ([' '] ++ (joinFields [f] ++ tail)) = _
  have hj : joinFields [f] = f := rfl
  rw [hj]
  refine parseUlongTok_field [' '] f tail (by simp [isSpaceC]) hne hns hf ?_
  rcases htail with rfl | ⟨t, rfl⟩
  · exact Or.inl rfl
  · exact Or.inr (Or.inr ⟨t, rfl⟩)

theorem parsePointFields_wf (tokens : Nat) (L : List (List Char))
    (ws tail : List Char)
    (hws : ∀ a ∈ ws, isSpaceC a = true)
    (hlen : L.length = tokens) (htok : 8 ≤ tokens)
    (hfields : ∀ f ∈ L, f ≠ [] ∧ ∀ c ∈ f, isSpaceC c = false)
    (hfloat : ∀ j, j < 10 → j ≠ 7 → j < tokens →
      floatField (L.getD j []) = true)
    (hulong : ulongField (L.getD 7 []) = true)
    (htail : tail = [] ∨ ∃ t, tail = '\n' :: t) :
    parsePointFields tokens (ws ++ (joinFields L ++ tail)) =
      (recOfFields tokens L, afterFields tokens L tail) := by
  rcases L with _ | ⟨f1, L⟩
  · simp at hlen; omega
  rcases L with _ | ⟨f2, L⟩
  · simp at hlen; omega
  rcases L with _ | ⟨f3, L⟩
  · simp at hlen; omega
  rcases L with _ | ⟨f4, L⟩
  · simp at hlen; omega
  rcases L with _ | ⟨f5, L⟩
  · simp at hlen; omega
  rcases L with _ | ⟨f6, L⟩
  · simp at hlen; omega
  rcases L with _ | ⟨f7, L⟩
  · simp at hlen; omega
  rcases L with _ | ⟨f8, L⟩
  · simp at hlen; omega
  obtain ⟨hn1, hs1⟩ := hfields f1 (by simp)
  obtain ⟨hn2, hs2⟩ := hfields f2 (by simp)
  obtain ⟨hn3, hs3⟩ := hfields f3 (by simp)
  obtain ⟨hn4, hs4⟩ := hfields f4 (by simp)
  obtain ⟨hn5, hs5⟩ := hfields f5 (by simp)
  obtain ⟨hn6, hs6⟩ := hfields f6 (by simp)
  obtain ⟨hn7, hs7⟩ := hfields f7 (by simp)
  obtain ⟨hn8, hs8⟩ := hfields f8 (by simp)
  have hg1 : floatField f1 = true := by
    simpa using hfloat 0 (by omega) (by omega) (by omega)
  have hg2 : floatField f2 = true := by
    simpa using hfloat 1 (by omega) (by omega) (by omega)
  have hg3 : floatField f3 = true := by
    simpa using hfloat 2 (by omega) (by omega) (by omega)
  have hg4 : floatField f4 = true := by
    simpa using hfloat 3 (by omega) (by omega) (by omega)
  have hg5 : floatField f5 = true := by
    simpa using hfloat 4 (by omega) (by omega) (by omega)
  have hg6 : floatField f6 = true := by
    simpa using hfloat 5 (by omega) (by omega) (by omega)
  have hg7 : floatField f7 = true := by
    simpa using hfloat 6 (by omega) (by omega) (by omega)
  have hg8 : ulongField f8 = true := by simpa using hulong
  have h1 := parseFloat_first ws f1 f2 (f3 :: f4 :: f5 :: f6 :: f7 :: f8 :: L)
    tail hws hn1 hs1 hg1
  have h2 := parseFloat_cons_sp f2 f3 (f4 :: f5 :: f6 :: f7 :: f8 :: L) tail
    hn2 hs2 hg2
  have h3 := parseFloat_cons_sp f3 f4 (f5 :: f6 :: f7 :: f8 :: L) tail
    hn3 hs3 hg3
  have h4 := parseFloat_cons_sp f4 f5 (f6 :: f7 :: f8 :: L) tail hn4 hs4 hg4
  have h5 := parseFloat_cons_sp f5 f6 (f7 :: f8 :: L) tail hn5 hs5 hg5
  have h6 := parseFloat_cons_sp f6 f7 (f8 :: L) tail hn6 hs6 hg6
  rcases L with _ | ⟨f9, L⟩
  · have ht8 : tokens = 8 := by simp at hlen; omega
    subst ht8
    have h7 := parseFloat_cons_sp f7 f8 [] tail hn7 hs7 hg7
    have h8 := parseUlong_last_sp f8 tail hn8 hs8 hg8 htail
    simp only [parsePointFields, h1, h2, h3, h4, h5, h6, h7, h8]
    simp [recOfFields, afterFields]
  obtain ⟨hn9, hs9⟩ := hfields f9 (by simp)
  have hg9 : floatField f9 = true := by
    have h := hlen
    simp at h
    simpa using hfloat 8 (by omega) (by omega) (by omega)
  have h7 := parseFloat_cons_sp f7 f8 (f9 :: L) tail hn7 hs7 hg7
  have h8 := parseUlong_cons_sp f8 f9 L tail hn8 hs8 hg8
  rcases L with _ | ⟨f10, L⟩
  · have ht9 : tokens = 9 := by simp at hlen; omega
    subst ht9
    have h9 := parseFloat_last_sp f9 tail hn9 hs9 hg9 htail
    simp only [parsePointFields, h1, h2, h3, h4, h5, h6, h7, h8, h9]
    simp [recOfFields, afterFields]
  obtain ⟨hn10, hs10⟩ := hfields f10 (by simp)
  have hg10 : floatField f10 = true := by
    have h := hlen
    simp at h
    simpa using hfloat 9 (by omega) (by omega) (by omega)
  have h9 := parseFloat_cons_sp f9 f10 L tail hn9 hs9 hg9
  rcases L with _ | ⟨f11, L⟩
  · have ht10 : tokens = 10 := by simp at hlen; omega
    subst ht10
    have h10 := parseFloat_last_sp f10 tail hn10 hs10 hg10 htail
    simp only [parsePointFields, h1, h2, h3, h4, h5, h6, h7, h8, h9, h10]
    simp [recOfFields, afterFields]
  have ht11 : 11 ≤ tokens := by simp at hlen; omega
  have h10 := parseFloat_cons_sp f10 f11 L tail hn10 hs10 hg10
  simp only [parsePointFields, h1, h2, h3, h4, h5, h6, h7, h8, h9, h10]
  rw [if_pos (by omega : tokens > 8), if_pos (by omega : tokens > 9)]
  simp only [recOfFields, afterFields]
  rw [if_pos (by omega : tokens > 8), if_pos (by omega : tokens > 9),
    if_neg (by omega : ¬ tokens ≤ 10)]
  simp

theorem parsePointFields_line (tokens : Nat) (L : List (List Char))
    (hlen : L.length = tokens) (htok : 8 ≤ tokens)
    (hfields : ∀ f ∈ L, f ≠ [] ∧ ∀ c ∈ f, isSpaceC c = false)
    (hfloat : ∀ j, j < 10 → j ≠ 7 → j < tokens →
      floatField (L.getD j []) = true)
    (hulong : ulongField (L.getD 7 []) = true) :
    parsePointFields tokens (joinFields L) =
      (recOfFields tokens L, afterFields tokens L []) := by
  have := parsePointFields_wf tokens L [] [] (by simp) hlen htok hfields
    hfloat hulong (Or.inl rfl)
  simpa using this

theorem joinFields_mem (L : List (List Char))
    (hf : ∀ f ∈ L, f ≠ [] ∧ ∀ c ∈ f, isSpaceC c = false) :
    ∀ a ∈ joinFields L, a = ' ' ∨ isSpaceC a = false := by
  induction L with
  | nil => simp [joinFields]
  | cons f L ih =>
    rcases L with _ | ⟨g, L⟩
    · intro a ha
      exact Or.inr ((hf f (by simp)).2 a (by simpa [joinFields] using ha))
    · intro a ha
      rw [joinFields_cons₂] at ha
      rcases List.mem_append.mp ha with hin | hin
      · exact Or.inr ((hf f (by simp)).2 a hin)
      · rcases List.mem_cons.mp hin with rfl | hin
        · exact Or.inl rfl
        · exact ih (fun x hx => hf x (by simp [hx])) a hin

theorem joinFields_no_newline (L : List (List Char))
    (hf : ∀ f ∈ L, f ≠ [] ∧ ∀ c ∈ f, isSpaceC c = false) :
    ∀ a ∈ joinFields L, a ≠ '\n' := by
  intro a ha
  rcases joinFields_mem L hf a ha with rfl | hs
  · decide
  · intro h
    rw [h] at hs
    simp [isSpaceC] at hs

theorem joinFields_ne_nil (f : List Char) (L : List (List Char))
    (hne : f ≠ []) : joinFields (f :: L) ≠ [] := by
  rcases L with _ | ⟨g, L⟩
  · simpa [joinFields] using hne
  · rw [joinFields_cons₂]
    simp [hne]

theorem joinLines_cons (c : List Char) (cs : List (List Char)) :
    joinLines (c :: cs) = c ++ '\n' :: joinLines cs := by
  simp [joinLines]

theorem getline512_wf (c rest : List Char) (hnl : ∀ a ∈ c, a ≠ '\n')
    (hlen : c.length ≤ 510) :
    getline512 (c ++ '\n' :: rest) = some (c, rest) := by
  have htw : (c ++ '\n' :: rest).takeWhile (fun x => x ≠ '\n') = c := by
    rw [takeWhile_append_all _ _ _ (fun a ha => by simp [hnl a ha])]
    simp [List.takeWhile_cons]
  rcases c with _ | ⟨a, c⟩
  · simp [getline512, List.takeWhile_cons]
  · show getline512 (a :: (c ++ '\n' :: rest)) = _
    unfold getline512
    simp only [← List.cons_append, htw]
    rw [if_neg (by simp at hlen ⊢; omega)]
    have hdrop : ((a :: c) ++ '\n' :: rest).drop (a :: c).length = '\n' :: rest :=
      List.drop_left _ _
    simp only [hdrop]
    rfl

theorem afterFields_skip (tokens : Nat) (L : List (List Char)) (t : List Char)
    (htok : 8 ≤ tokens)
    (hf : ∀ f ∈ L, f ≠ [] ∧ ∀ c ∈ f, isSpaceC c = false) :
    (if tokens > 10 then
      (afterFields tokens L ('\n' :: t)).dropWhile (fun c => c ≠ '\n')
     else afterFields tokens L ('\n' :: t)) = '\n' :: t := by
  by_cases h10 : tokens ≤ 10
  · rw [if_neg (by omega), afterFields, if_pos h10]
  · rw [if_pos (by omega), afterFields, if_neg h10]
    have hpre : ∀ a ∈ (' ' :: joinFields (L.drop 10)), a ≠ '\n' := by
      intro a ha
      rcases List.mem_cons.mp ha with rfl | ha
      · decide
      · exact joinFields_no_newline _
          (fun f hf' => hf f (List.drop_subset _ _ hf')) a ha
    rw [show ' ' :: (joinFields (L.drop 10) ++ '\n' :: t) =
      (' ' :: joinFields (L.drop 10)) ++ ('\n' :: t) from rfl]
    rw [dropWhile_append_all _ _ _ (fun a ha => by simp [hpre a ha])]
    simp [List.dropWhile_cons]

theorem readAngDataGo_wf (nColsEven nColsOdd tokens total : Nat)
    (htok : 8 ≤ tokens) :
    ∀ (cs : List (List (List Char))) (A : AngArrays) (st : TravState)
      (pointsRead : Nat),
      (∀ L ∈ cs, wfLine tokens L) →
      pointsRead + cs.length = total →
      readAngDataGo nColsEven nColsOdd tokens total cs.length A st
          (joinLines (cs.map joinFields)) pointsRead =
        (scatterRecords nColsEven nColsOdd tokens A st
          (cs.map (fun L => recOfFields tokens L)), total) := by
  intro cs
  induction cs with
  | nil =>
    intro A st pointsRead _ hsum
    simp only [List.length_nil, readAngDataGo, List.map_nil, scatterRecords]
    simp at hsum
    rw [hsum]
  | cons L cs ih =>
    intro A st pointsRead hwf hsum
    obtain ⟨hlen, hfields, hfloat, hulong, hshort⟩ := hwf L (by simp)
    have hnl := joinFields_no_newline L hfields
    simp only [List.map_cons, List.length_cons]
    rw [joinLines_cons]
    simp only [readAngDataGo]
    rw [if_pos (by simp at hsum; omega)]
    rw [getline512_wf _ _ hnl hshort]
    dsimp only
    rw [parsePointFields_line tokens L hlen htok hfields hfloat hulong]
    dsimp only
    simp only [scatterRecords]
    have ihr := ih (writePoint A (travIndex st) (recOfFields tokens L) tokens)
      (travStep nColsEven nColsOdd st) (pointsRead + 1)
      (fun X hX => hwf X (by simp [hX])) (by simp at hsum ⊢; omega)
    simpa using ihr

theorem readAngDataMemMapGo_wf (nColsEven nColsOdd tokens total fileBytes : Nat)
    (htok : 8 ≤ tokens) :
    ∀ (cs : List (List (List Char))) (ws : List Char) (A : AngArrays)
      (st : TravState) (pointsRead bytesRead : Nat),
      (∀ L ∈ cs, wfLine tokens L) →
      (ws = [] ∨ ws = ['\n']) →
      pointsRead + cs.length = total →
      bytesRead + (ws ++ joinLines (cs.map joinFields)).length = fileBytes + 1 →
      readAngDataMemMapGo nColsEven nColsOdd tokens total fileBytes cs.length
          A st (ws ++ joinLines (cs.map joinFields)) pointsRead bytesRead =
        (scatterRecords nColsEven nColsOdd tokens A st
          (cs.map (fun L => recOfFields tokens L)), total) := by
  intro cs
  induction cs with
  | nil =>
    intro ws A st pointsRead bytesRead _ _ hsum _
    simp only [List.length_nil, readAngDataMemMapGo, List.map_nil,
      scatterRecords]
    simp at hsum
    rw [hsum]
  | cons L cs ih =>
    intro ws A st pointsRead bytesRead hwf hws hsum hbytes
    obtain ⟨hlen, hfields, hfloat, hulong, hshort⟩ := hwf L (by simp)
    have hLne : L ≠ [] := by
      intro h
      rw [h] at hlen
      simp at hlen
      omega
    obtain ⟨f0, L0, hL0⟩ := List.exists_cons_of_ne_nil hLne
    have hjne : joinFields L ≠ [] := by
      rw [hL0]
      exact joinFields_ne_nil f0 L0 (hfields f0 (by rw [hL0]; simp)).1
    have hjpos : 1 ≤ (joinFields L).length := List.length_pos.mpr hjne
    simp only [List.map_cons, List.length_cons] at hbytes ⊢
    rw [joinLines_cons] at hbytes ⊢
    have hg1 : pointsRead < total := by simp at hsum; omega
    have hg2 : bytesRead < fileBytes := by
      simp only [List.length_append, List.length_cons] at hbytes
      omega
    simp only [readAngDataMemMapGo]
    rw [if_pos (by simp only [Bool.and_eq_true, decide_eq_true_eq]
                   exact ⟨hg1, hg2⟩)]
    have hwsspace : ∀ a ∈ ws, isSpaceC a = true := by
      rcases hws with rfl | rfl <;> simp [isSpaceC]
    rw [parsePointFields_wf tokens L ws
      ('\n' :: joinLines (cs.map joinFields)) hwsspace hlen htok hfields
      hfloat hulong (Or.inr ⟨_, rfl⟩)]
    dsimp only
    rw [afterFields_skip tokens L _ htok hfields]
    simp only [scatterRecords]
    have hinv : (bytesRead +
        ((ws ++ (joinFields L ++ '\n' :: joinLines (cs.map joinFields))).length -
          ('\n' :: joinLines (cs.map joinFields)).length)) +
        (['\n'] ++ joinLines (cs.map joinFields)).length = fileBytes + 1 := by
      simp only [List.length_append, List.length_cons,
        List.singleton_append] at hbytes ⊢
      omega
    have ihr := ih ['\n']
      (writePoint A (travIndex st) (recOfFields tokens L) tokens)
      (travStep nColsEven nColsOdd st) (pointsRead + 1)
      (bytesRead +
        ((ws ++ (joinFields L ++ '\n' :: joinLines (cs.map joinFields))).length -
          ('\n' :: joinLines (cs.map joinFields)).length))
      (fun X hX => hwf X (by simp [hX])) (Or.inr rfl)
      (by simp at hsum ⊢; omega) hinv
    rw [List.singleton_append] at ihr
    exact ihr

/-- C2 amended: on a well-formed data section — one line per expected
point, each line holding exactly the counted number of columns as
single-space-separated numeric fields (decimal floats with optional sign
and exponent for the seven real fields and the optional SE-signal and fit
columns; a base-10 integer for the phase column), newline-terminated and
short enough for the 512-byte line buffer — the buffered-stream decoder
and the memory-mapped decoder, started from the same header-derived state
(grid dimensions, allocated arrays, token count; any header offset),
produce identical contents in every output array and return the same
parsed-point count: both compute the reference scatter of the per-line
records along the shared traversal.  (The unrestricted claim is false:
see `C2_decoders_disagree`, where a single trailing blank before a newline
makes the two decoders return different counts on identical data-section
bytes.) -/
theorem C2_decoder_equivalence (nColsEven nColsOdd tokens offset : Nat)
    (A : AngArrays) (cs : List (List (List Char)))
    (htok : 8 ≤ tokens)
    (hwf : ∀ L ∈ cs, wfLine tokens L)
    (hcount : cs.length = A.iq.length) :
    readAngDataModel nColsEven nColsOdd tokens A
        (joinLines (cs.map joinFields)) =
      readAngDataMemMapModel nColsEven nColsOdd tokens A offset
        (joinLines (cs.map joinFields)) := by
  unfold readAngDataModel readAngDataMemMapModel
  rw [← hcount]
  rw [readAngDataGo_wf nColsEven nColsOdd tokens cs.length htok cs A
    (initTrav nColsEven) 0 hwf (by omega)]
  have hmm := readAngDataMemMapGo_wf nColsEven nColsOdd tokens cs.length
    (offset + (joinLines (cs.map joinFields)).length) htok cs [] A
    (initTrav nColsEven) 0 (offset + 1) hwf (Or.inl rfl) (by omega)
    (by simp; omega)
  rw [List.nil_append] at hmm
  rw [hmm]

/-- C2 fails on the code as stated: `c2Data` is a data section of one
well-formed 8-field line followed by a trailing space before its newline.
With 2 expected points, the buffered decoder parses one line, fails to get
another and returns 1 (the caller then reports truncation), while the
memory-mapped decoder's byte accounting (`bytesRead` starts at
`offset + 1`) leaves it one byte short of the region end, so it runs one
more iteration on pure whitespace in which every `strtof`/`strtoul` fails
without advancing, records a second (all-zero) point and returns 2.  The
two decoders thus return different parsed-point counts on identical
data-section bytes. -/
theorem C2_decoders_disagree :
    (readAngDataModel 1 1 8 (mkArrays 2 8) c2Data).2 = 1 ∧
    (readAngDataMemMapModel 1 1 8 (mkArrays 2 8) 0 c2Data).2 = 2 ∧
    (readAngDataModel 1 1 8 (mkArrays 2 8) c2Data).2 ≠
      (readAngDataMemMapModel 1 1 8 (mkArrays 2 8) 0 c2Data).2 :=
  ⟨rfl, rfl, by decide⟩

/-- Witness for C2 on a concrete two-line well-formed data section of
ordinary decimal-float fields (signs, exponents and bare-point forms
included) over a 1-by-2 grid: both decoders produce the same result. -/
theorem C2_decoder_equivalence_witness :
    readAngDataModel 1 1 8 (mkArrays 2 8)
        (joinLines (demoFieldLines.map joinFields)) =
      readAngDataMemMapModel 1 1 8 (mkArrays 2 8) 0
        (joinLines (demoFieldLines.map joinFields)) :=
  C2_decoder_equivalence 1 1 8 0 (mkArrays 2 8) demoFieldLines (by decide)
    (by decide) (by decide)
